import Mathlib

/-!
# squashfuse low-level FUSE dispatcher (`ll.c`): shallow embedding

The handlers of `src/ll.c` are embedded as pure functions over an explicit
`State` holding the four process-wide variables of the file and a trace of the
externally visible actions a handler performs (replies to the kernel, heap
allocation and release, inode-registry updates, buffer writes, signals and
timers).  Results of calls that leave the file (the archive library, the inode
registry, `malloc`, `time`) are supplied by an `Env`; theorems quantify over it,
so they hold for every outcome of those calls.

Integer model: `time_t` values are unbounded `Int` (LP64: in `alarm_tick` the
`unsigned int` timeout is converted to `long`, so the comparison is a signed
one); `sig_atomic_t` is a 32-bit `int`, and `++`/`--` on it wrap around modulo
`2^32`; `size_t` subtraction is done modulo `2^64`.  Names are C strings: their
length is counted in bytes up to the first NUL.
-/

namespace Squashfuse

/-! ## Constants of the platform headers -/

abbrev fuse_ino_t := Nat
abbrev sqfs_err := Nat

def SQFS_OK : sqfs_err := 0

def ENOENT : Int := 2
def EIO : Int := 5
def ENOMEM : Int := 12
def ENOTDIR : Int := 20
def EISDIR : Int := 21
def EINVAL : Int := 22
def EROFS : Int := 30
def ERANGE : Int := 34

def O_WRONLY : Nat := 1
def O_RDWR : Nat := 2

def S_IFMT : Nat := 0o170000
def S_IFDIR : Nat := 0o040000
def S_IFREG : Nat := 0o100000
def S_IFLNK : Nat := 0o120000

def S_ISDIR (mode : Nat) : Bool := mode &&& S_IFMT == S_IFDIR
def S_ISREG (mode : Nat) : Bool := mode &&& S_IFMT == S_IFREG
def S_ISLNK (mode : Nat) : Bool := mode &&& S_IFMT == S_IFLNK

def SIGINT : Nat := 2

/-- Largest value of `int`, the type behind `sig_atomic_t`. -/
def INT_MAX : Int := 2147483647

/-- Smallest value of `int`. -/
def INT_MIN : Int := -2147483648

/-- Conversion of an integer result to the 32-bit `sig_atomic_t`: reduction
modulo `2^32` into the range from `INT_MIN` to `INT_MAX` (what `++` and `--`
produce on two's complement hardware when they leave the range). -/
def to_sig_atomic_t (x : Int) : Int := (x + 2147483648) % 4294967296 - 2147483648

/-- The characters of a C string: those before the first NUL. -/
def c_str (name : String) : String :=
  String.mk (name.data.takeWhile (fun c => c != Char.ofNat 0))

/-- The C function `strlen`: the number of bytes of the string, in its UTF-8
encoding, before the terminating NUL. -/
def strlen (name : String) : Nat := ((c_str name).data.map Char.utf8Size).sum

/-- Number of values of `size_t`. -/
def SIZE_T_RANGE : Nat := 2 ^ 64

/-- The C statement `a -= b` on `size_t` operands: subtraction modulo `2^64`. -/
def size_t_sub (a b : Nat) : Nat := (a + SIZE_T_RANGE - b % SIZE_T_RANGE) % SIZE_T_RANGE

/-- Cache-validity durations handed to the kernel (C `double`).  The handlers
only ever produce the zero left by `memset` and `DBL_MAX`. -/
inductive Validity where
  | zero
  | DBL_MAX
  deriving DecidableEq, Repr

/-- The constant `static const double SQFS_TIMEOUT = DBL_MAX;`. -/
def SQFS_TIMEOUT : Validity := Validity.DBL_MAX

/-- Modelled from the spec: the sentinel `SQFS_FUSE_INODE_NONE` of `ll.h`, the
kernel inode number that denotes "no specific inode" (used by the forget
path, which only needs registry access). -/
def SQFS_FUSE_INODE_NONE : fuse_ino_t := 0

/-! ## Data carried by requests and replies -/

structure squashfs_base_inode where
  mode : Nat
  inode_number : Nat
  deriving DecidableEq, Repr

structure sqfs_inode where
  base : squashfs_base_inode
  deriving DecidableEq, Repr

/-- The pair built by `sqfs_ll_iget`; the filesystem handle `ll` is the single
process-wide one and is left implicit. -/
structure sqfs_ll_i where
  inode : sqfs_inode
  deriving DecidableEq, Repr

/-- The fields of `struct stat` the handlers touch; `st_rest` stands for all
the other fields together. -/
structure stat where
  st_ino : Nat
  st_mode : Nat
  st_rest : Nat
  deriving DecidableEq, Repr

structure statvfs where
  f_rest : Nat
  deriving DecidableEq, Repr

structure fuse_entry_param where
  ino : fuse_ino_t
  generation : Nat
  attr : stat
  attr_timeout : Validity
  entry_timeout : Validity
  deriving DecidableEq, Repr

/-- The fields of `struct fuse_file_info` the handlers touch.  `fh` holds a
pointer cast to an integer; `0` is `NULL`. -/
structure fuse_file_info where
  flags : Nat
  fh : Nat
  keep_cache : Nat
  deriving DecidableEq, Repr

/-- A directory entry as produced by the archive iterator: the values returned
by `sqfs_dentry_name`, `sqfs_dentry_inode`, `sqfs_dentry_mode` and
`sqfs_dentry_next_offset`. -/
structure sqfs_dir_entry where
  name : String
  inode : Nat
  mode : Nat
  next_offset : Nat
  deriving DecidableEq, Repr

/-- Modelled from the spec: the directory iterator `sqfs_dir` of the archive
library ("iterates a directory's entries").  `pending` are the entries the
stream still yields, in order; `status` is the `sqfs_err` it reports once they
are used up: `SQFS_OK` for a clean end, anything else for a stream failure. -/
structure sqfs_dir where
  pending : List sqfs_dir_entry
  status : sqfs_err
  deriving DecidableEq, Repr

/-- One call of `fuse_add_dirent`: a directory record of `esize` bytes placed
at byte `pos` of the reply buffer, carrying the name as a C string.  `avail` is
the `bufsize` argument of the enclosing `sqfs_ll_add_direntry` call, that is,
the budget left at that point. -/
structure dirent_write where
  pos : Nat
  avail : Nat
  esize : Nat
  name : String
  st : stat
  off : Nat
  deriving DecidableEq, Repr

/-- The replies of the low-level FUSE interface used by `ll.c`. -/
inductive Reply where
  | err (e : Int)
  | attr (st : stat) (timeout : Validity)
  | entry (e : fuse_entry_param)
  | open (fi : fuse_file_info)
  | buf (buf : Nat) (size : Nat)
  | readlink (link : String)
  | xattr (count : Nat)
  | statfs (st : statvfs)
  | none
  deriving DecidableEq, Repr

/-- Externally visible actions, in the order a handler performs them. -/
inductive Event where
  | reply (r : Reply)
  | malloc (result : Nat)
  | free (ptr : Nat)
  | fuse_add_dirent (w : dirent_write)
  | ino_register (entry : sqfs_dir_entry) (result : fuse_ino_t)
  | ino_forget (ino : fuse_ino_t) (nlookup : Nat)
  | kill (sig : Nat)
  | alarm (seconds : Nat)
  | sigaction (result : Int)
  deriving DecidableEq, Repr

/-- The file-scope variables of `ll.c` together with the trace of actions
performed so far.  `fuse_instance` is a pointer; `0` is `NULL`.  `open_refcount`
is a `sig_atomic_t`: the handlers store into it through `to_sig_atomic_t`. -/
structure State where
  idle_timeout_secs : Nat
  last_access : Int
  open_refcount : Int
  fuse_instance : Nat
  trace : List Event
  deriving DecidableEq, Repr

/-- What the calls that leave `ll.c` return during one request. -/
structure Env where
  /-- the value of `time(NULL)` -/
  time : Int
  /-- the pointer returned by the request's `malloc`; `0` is `NULL` -/
  malloc : Nat
  /-- contents of the caller's `sqfs_ll_i` before `sqfs_ll_iget` fills it -/
  uninit_inode : sqfs_inode
  /-- libfuse: size of a directory record for a name of the given byte length -/
  fuse_dirent_size : Nat → Nat
  sqfs_ll_inode : fuse_ino_t → Option sqfs_inode
  sqfs_stat : sqfs_inode → Option stat
  /-- `sqfs_statfs`: the returned code and the statistics written -/
  sqfs_statfs : Int × statvfs
  /-- `sqfs_dir_open` on the inode behind handle `fh` at offset `off` -/
  sqfs_dir_open : Nat → Nat → Option sqfs_dir
  /-- `sqfs_dir_lookup`: `none` on error, `some none` when not found -/
  sqfs_dir_lookup : sqfs_inode → String → Option (Option sqfs_dir_entry)
  sqfs_inode_get : Nat → Option sqfs_inode
  /-- `sqfs_read_range` on handle `fh`: the number of bytes read -/
  sqfs_read_range : Nat → Int → Nat → Option Nat
  /-- `sqfs_readlink` with a `NULL` buffer: the length of the target -/
  sqfs_readlink_size : sqfs_inode → Option Nat
  /-- `sqfs_readlink` with a buffer: the target -/
  sqfs_readlink : sqfs_inode → Option String
  /-- `sqfs_listxattr`: the returned code and the size written back -/
  sqfs_listxattr : sqfs_inode → Bool → Nat → Int × Nat
  /-- `sqfs_xattr_lookup`: the needed size written to `real`, `none` on error -/
  sqfs_xattr_lookup : sqfs_inode → String → Nat → Option Nat
  /-- `sqfs_enoattr()`: the platform's no-such-attribute code -/
  sqfs_enoattr : Int
  ino_fuse_num : sqfs_dir_entry → fuse_ino_t
  ino_register : sqfs_dir_entry → fuse_ino_t
  /-- the result of `sigaction` in `setup_idle_timeout` -/
  sigaction : Int

/-! ## Primitive actions -/

def State.emit (s : State) (e : Event) : State :=
  { s with trace := s.trace ++ [e] }

def fuse_reply_err (s : State) (e : Int) : State := s.emit (Event.reply (Reply.err e))

def fuse_reply_attr (s : State) (st : stat) (timeout : Validity) : State :=
  s.emit (Event.reply (Reply.attr st timeout))

def fuse_reply_entry (s : State) (e : fuse_entry_param) : State :=
  s.emit (Event.reply (Reply.entry e))

def fuse_reply_open (s : State) (fi : fuse_file_info) : State :=
  s.emit (Event.reply (Reply.open fi))

def fuse_reply_buf (s : State) (buf size : Nat) : State :=
  s.emit (Event.reply (Reply.buf buf size))

def fuse_reply_readlink (s : State) (link : String) : State :=
  s.emit (Event.reply (Reply.readlink link))

def fuse_reply_xattr (s : State) (count : Nat) : State :=
  s.emit (Event.reply (Reply.xattr count))

def fuse_reply_statfs (s : State) (st : statvfs) : State :=
  s.emit (Event.reply (Reply.statfs st))

def fuse_reply_none (s : State) : State := s.emit (Event.reply Reply.none)

/-- The call `malloc(..)`: the returned pointer comes from the environment. -/
def malloc (env : Env) (s : State) : State × Nat :=
  (s.emit (Event.malloc env.malloc), env.malloc)

def free (s : State) (ptr : Nat) : State := s.emit (Event.free ptr)

/-- The statement `last_access = time(NULL);`. -/
def State.stamp (s : State) (env : Env) : State :=
  { s with last_access := env.time }

/-- Modelled from the spec: `sqfs_ll_iget` builds the InodeView for a kernel
inode number.  For the sentinel it only binds the filesystem handle, resolves
nothing and cannot fail; otherwise it resolves the inode, and on failure it
issues the no-such-entry error reply itself and returns an error. -/
def sqfs_ll_iget (env : Env) (s : State) (i : fuse_ino_t) : State × Option sqfs_ll_i :=
  if i = SQFS_FUSE_INODE_NONE then (s, some { inode := env.uninit_inode })
  else match env.sqfs_ll_inode i with
    | some inode => (s, some { inode := inode })
    | none => (fuse_reply_err s ENOENT, none)

/-! ## The request handlers -/

def sqfs_ll_op_getattr (env : Env) (s : State) (ino : fuse_ino_t)
    (_fi : fuse_file_info) : State :=
  let s := s.stamp env
  match sqfs_ll_iget env s ino with
  | (s, none) => s
  | (s, some lli) =>
    match env.sqfs_stat lli.inode with
    | none => fuse_reply_err s ENOENT
    | some st => fuse_reply_attr s { st with st_ino := ino } SQFS_TIMEOUT

def sqfs_ll_op_opendir (env : Env) (s : State) (ino : fuse_ino_t)
    (fi : fuse_file_info) : State × fuse_file_info :=
  let s := s.stamp env
  let fi := { fi with fh := 0 }
  match malloc env s with
  | (s, lli) =>
    if lli = 0 then (fuse_reply_err s ENOMEM, fi)
    else
      match sqfs_ll_iget env s ino with
      | (s, some i) =>
        if !S_ISDIR i.inode.base.mode then
          (free (fuse_reply_err s ENOTDIR) lli, fi)
        else
          let fi := { fi with fh := lli }
          let s := { s with open_refcount := to_sig_atomic_t (s.open_refcount + 1) }
          (fuse_reply_open s fi, fi)
      | (s, none) => (free s lli, fi)

def sqfs_ll_op_create (env : Env) (s : State) (_parent : fuse_ino_t) (_name : String)
    (_mode : Nat) (_fi : fuse_file_info) : State :=
  let s := s.stamp env
  fuse_reply_err s EROFS

def sqfs_ll_op_releasedir (env : Env) (s : State) (_ino : fuse_ino_t)
    (fi : fuse_file_info) : State :=
  let s := s.stamp env
  let s := { s with open_refcount := to_sig_atomic_t (s.open_refcount - 1) }
  let s := free s fi.fh
  fuse_reply_err s 0

/-- The helper `sqfs_ll_add_direntry` (the branch without `fuse_add_direntry`;
the libfuse function of the other branch has the same contract): the record
is written only when `bufsize >= esize`, and `esize` is returned either way. -/
def sqfs_ll_add_direntry (env : Env) (s : State) (buf bufsize : Nat) (name : String)
    (st : stat) (off : Nat) : State × Nat :=
  let esize := env.fuse_dirent_size (strlen name)
  if bufsize ≥ esize then
    (s.emit (Event.fuse_add_dirent
      { pos := buf, avail := bufsize, esize := esize, name := c_str name, st := st,
        off := off }),
     esize)
  else (s, esize)

/-- Local variables of `sqfs_ll_op_readdir` at the exit of its loop;
`bufpos` is the distance `bufpos - buf`. -/
structure readdir_vars where
  s : State
  bufpos : Nat
  size : Nat
  sqerr : sqfs_err

/-- The `while (sqfs_dir_next(..))` loop of `sqfs_ll_op_readdir`, by recursion on
the entries the iterator still yields.  On the empty stream `sqfs_dir_next`
returns false and leaves the stream status in `sqerr`; on an entry it returns
true with `sqerr = SQFS_OK`. -/
def readdir_loop (env : Env) (status : sqfs_err) :
    List sqfs_dir_entry → State → Nat → Nat → readdir_vars
  | [], s, bufpos, size => { s := s, bufpos := bufpos, size := size, sqerr := status }
  | entry :: rest, s, bufpos, size =>
    let st : stat :=
      { st_ino := env.ino_fuse_num entry, st_mode := entry.mode, st_rest := 0 }
    match sqfs_ll_add_direntry env s bufpos size entry.name st entry.next_offset with
    | (s, esize) =>
      if esize > size then { s := s, bufpos := bufpos, size := size, sqerr := SQFS_OK }
      else readdir_loop env status rest s (bufpos + esize) (size_t_sub size esize)

def sqfs_ll_op_readdir (env : Env) (s : State) (_ino : fuse_ino_t) (size : Nat)
    (off : Nat) (fi : fuse_file_info) : State :=
  let s := s.stamp env
  match env.sqfs_dir_open fi.fh off with
  | none => free (fuse_reply_err s EINVAL) 0
  | some dir =>
    match malloc env s with
    | (s, buf) =>
      if buf = 0 then free (fuse_reply_err s ENOMEM) buf
      else
        let v := readdir_loop env dir.status dir.pending s 0 size
        if v.sqerr ≠ 0 then free (fuse_reply_err v.s EIO) buf
        else free (fuse_reply_buf v.s buf v.bufpos) buf

def sqfs_ll_op_lookup (env : Env) (s : State) (parent : fuse_ino_t)
    (name : String) : State :=
  let s := s.stamp env
  match sqfs_ll_iget env s parent with
  | (s, none) => s
  | (s, some lli) =>
    if !S_ISDIR lli.inode.base.mode then fuse_reply_err s ENOTDIR
    else
      match env.sqfs_dir_lookup lli.inode name with
      | none => fuse_reply_err s EIO
      | some none =>
        let fentry : fuse_entry_param :=
          { ino := 0, generation := 0, attr := { st_ino := 0, st_mode := 0, st_rest := 0 },
            attr_timeout := SQFS_TIMEOUT, entry_timeout := SQFS_TIMEOUT }
        fuse_reply_entry s fentry
      | some (some entry) =>
        match env.sqfs_inode_get entry.inode with
        | none => fuse_reply_err s ENOENT
        | some inode =>
          match env.sqfs_stat inode with
          | none => fuse_reply_err s EIO
          | some attr =>
            let ino := env.ino_register entry
            let s := s.emit (Event.ino_register entry ino)
            let fentry : fuse_entry_param :=
              { ino := ino, generation := 0, attr := { attr with st_ino := ino },
                attr_timeout := SQFS_TIMEOUT, entry_timeout := SQFS_TIMEOUT }
            fuse_reply_entry s fentry

def sqfs_ll_op_open (env : Env) (s : State) (ino : fuse_ino_t)
    (fi : fuse_file_info) : State × fuse_file_info :=
  let s := s.stamp env
  if fi.flags &&& (O_WRONLY ||| O_RDWR) ≠ 0 then (fuse_reply_err s EROFS, fi)
  else
    match malloc env s with
    | (s, inode) =>
      if inode = 0 then (fuse_reply_err s ENOMEM, fi)
      else
        match env.sqfs_ll_inode ino with
        | none => (free (fuse_reply_err s ENOENT) inode, fi)
        | some i =>
          if !S_ISREG i.base.mode then (free (fuse_reply_err s EISDIR) inode, fi)
          else
            let fi := { fi with fh := inode, keep_cache := 1 }
            let s := { s with open_refcount := to_sig_atomic_t (s.open_refcount + 1) }
            (fuse_reply_open s fi, fi)

def sqfs_ll_op_release (env : Env) (s : State) (_ino : fuse_ino_t)
    (fi : fuse_file_info) : State × fuse_file_info :=
  let s := free s fi.fh
  let fi := { fi with fh := 0 }
  let s := s.stamp env
  let s := { s with open_refcount := to_sig_atomic_t (s.open_refcount - 1) }
  (fuse_reply_err s 0, fi)

def sqfs_ll_op_read (env : Env) (s : State) (_ino : fuse_ino_t) (size : Nat)
    (off : Int) (fi : fuse_file_info) : State :=
  match malloc env s with
  | (s, buf) =>
    if buf = 0 then fuse_reply_err s ENOMEM
    else
      let s := s.stamp env
      match env.sqfs_read_range fi.fh off size with
      | none => free (fuse_reply_err s EIO) buf
      | some osize =>
        if osize = 0 then free (fuse_reply_buf s 0 0) buf
        else free (fuse_reply_buf s buf osize) buf

def sqfs_ll_op_readlink (env : Env) (s : State) (ino : fuse_ino_t) : State :=
  let s := s.stamp env
  match sqfs_ll_iget env s ino with
  | (s, none) => s
  | (s, some lli) =>
    if !S_ISLNK lli.inode.base.mode then fuse_reply_err s EINVAL
    else
      match env.sqfs_readlink_size lli.inode with
      | none => fuse_reply_err s EIO
      | some _size =>
        match malloc env s with
        | (s, dst) =>
          if dst = 0 then fuse_reply_err s ENOMEM
          else
            match env.sqfs_readlink lli.inode with
            | none => free (fuse_reply_err s EIO) dst
            | some link => free (fuse_reply_readlink s link) dst

def sqfs_ll_op_listxattr (env : Env) (s : State) (ino : fuse_ino_t) (size : Nat) : State :=
  let s := s.stamp env
  match sqfs_ll_iget env s ino with
  | (s, none) => s
  | (s, some lli) =>
    match (if size ≠ 0 then malloc env s else (s, 0)) with
    | (s, buf) =>
      if size ≠ 0 ∧ buf = 0 then fuse_reply_err s ENOMEM
      else
        match env.sqfs_listxattr lli.inode (buf != 0) size with
        | (ferr, size) =>
          if ferr ≠ 0 then free (fuse_reply_err s ferr) buf
          else if buf ≠ 0 then free (fuse_reply_buf s buf size) buf
          else free (fuse_reply_xattr s size) buf

/-- The handler `sqfs_ll_op_getxattr`.  `position` is the extra argument of builds
that define `FUSE_XATTR_POSITION`, and `none` on the others. -/
def sqfs_ll_op_getxattr (env : Env) (s : State) (ino : fuse_ino_t) (name : String)
    (size : Nat) (position : Option Nat) : State :=
  if position.isSome ∧ position ≠ some 0 then fuse_reply_err s EINVAL
  else
    let s := s.stamp env
    match sqfs_ll_iget env s ino with
    | (s, none) => s
    | (s, some lli) =>
      match malloc env s with
      | (s, buf) =>
        if buf = 0 then free (fuse_reply_err s ENOMEM) buf
        else
          match env.sqfs_xattr_lookup lli.inode name size with
          | none => free (fuse_reply_err s EIO) buf
          | some real =>
            if real = 0 then free (fuse_reply_err s env.sqfs_enoattr) buf
            else if size = 0 then free (fuse_reply_xattr s real) buf
            else if size < real then free (fuse_reply_err s ERANGE) buf
            else free (fuse_reply_buf s buf real) buf

def sqfs_ll_op_forget (env : Env) (s : State) (ino : fuse_ino_t) (nlookup : Nat) : State :=
  let s := s.stamp env
  match sqfs_ll_iget env s SQFS_FUSE_INODE_NONE with
  | (s, _) =>
    let s := s.emit (Event.ino_forget ino nlookup)
    fuse_reply_none s

def stfs_ll_op_statfs (env : Env) (s : State) (_ino : fuse_ino_t) : State :=
  match env.sqfs_statfs with
  | (err, st) =>
    if err = 0 then fuse_reply_statfs s st
    else fuse_reply_err s err

/-! ## Idle-timeout supervisor -/

def alarm_tick (env : Env) (s : State) (_sig : Nat) : State :=
  if s.fuse_instance = 0 ∨ s.idle_timeout_secs = 0 then s
  else if s.open_refcount = 0 ∧ env.time - s.last_access > (s.idle_timeout_secs : Int) then
    s.emit (Event.kill SIGINT)
  else s.emit (Event.alarm 1)

def setup_idle_timeout (env : Env) (s : State) (se : Nat) (timeout_secs : Nat) : State :=
  let s := s.stamp env
  let s := { s with idle_timeout_secs := timeout_secs }
  let s := { s with fuse_instance := se }
  let s := s.emit (Event.sigaction env.sigaction)
  if env.sigaction = -1 then s
  else s.emit (Event.alarm 1)

def teardown_idle_timeout (s : State) : State :=
  let s := s.emit (Event.alarm 0)
  { s with fuse_instance := 0 }

/-! ## The operation table -/

/-- A kernel request: one constructor per entry of `sqfs_ll_ops` in `main`. -/
inductive Request where
  | getattr (ino : fuse_ino_t) (fi : fuse_file_info)
  | opendir (ino : fuse_ino_t) (fi : fuse_file_info)
  | releasedir (ino : fuse_ino_t) (fi : fuse_file_info)
  | readdir (ino : fuse_ino_t) (size : Nat) (off : Nat) (fi : fuse_file_info)
  | lookup (parent : fuse_ino_t) (name : String)
  | open (ino : fuse_ino_t) (fi : fuse_file_info)
  | create (parent : fuse_ino_t) (name : String) (mode : Nat) (fi : fuse_file_info)
  | release (ino : fuse_ino_t) (fi : fuse_file_info)
  | read (ino : fuse_ino_t) (size : Nat) (off : Int) (fi : fuse_file_info)
  | readlink (ino : fuse_ino_t)
  | listxattr (ino : fuse_ino_t) (size : Nat)
  | getxattr (ino : fuse_ino_t) (name : String) (size : Nat) (position : Option Nat)
  | forget (ino : fuse_ino_t) (nlookup : Nat)
  | statfs (ino : fuse_ino_t)
  deriving DecidableEq, Repr

/-- Dispatch through the table `sqfs_ll_ops` filled in by `main`. -/
def sqfs_ll_ops (env : Env) (s : State) : Request → State
  | Request.getattr ino fi => sqfs_ll_op_getattr env s ino fi
  | Request.opendir ino fi => (sqfs_ll_op_opendir env s ino fi).1
  | Request.releasedir ino fi => sqfs_ll_op_releasedir env s ino fi
  | Request.readdir ino size off fi => sqfs_ll_op_readdir env s ino size off fi
  | Request.lookup parent name => sqfs_ll_op_lookup env s parent name
  | Request.open ino fi => (sqfs_ll_op_open env s ino fi).1
  | Request.create parent name mode fi => sqfs_ll_op_create env s parent name mode fi
  | Request.release ino fi => (sqfs_ll_op_release env s ino fi).1
  | Request.read ino size off fi => sqfs_ll_op_read env s ino size off fi
  | Request.readlink ino => sqfs_ll_op_readlink env s ino
  | Request.listxattr ino size => sqfs_ll_op_listxattr env s ino size
  | Request.getxattr ino name size position =>
    sqfs_ll_op_getxattr env s ino name size position
  | Request.forget ino nlookup => sqfs_ll_op_forget env s ino nlookup
  | Request.statfs ino => stfs_ll_op_statfs env s ino

/-- The session loop on a finite list of requests, each with the environment it
runs in. -/
def fuse_session_loop (s : State) : List (Env × Request) → State
  | [] => s
  | (env, req) :: rest => fuse_session_loop (sqfs_ll_ops env s req) rest

/-! ## Observations on traces -/

/-- The actions performed between state `s` and a later state `t`. -/
def issued (s t : State) : List Event := t.trace.drop s.trace.length

/-- The replies among a list of actions. -/
def replies : List Event → List Reply
  | [] => []
  | Event.reply r :: es => r :: replies es
  | _ :: es => replies es

/-- The buffer writes among a list of actions. -/
def writes : List Event → List dirent_write
  | [] => []
  | Event.fuse_add_dirent w :: es => w :: writes es
  | _ :: es => writes es

/-- The non-null pointers obtained from `malloc` and not yet passed to `free`. -/
def live_allocs : List Event → List Nat → List Nat
  | [], live => live
  | Event.malloc p :: es, live => live_allocs es (if p = 0 then live else live ++ [p])
  | Event.free p :: es, live => live_allocs es (live.erase p)
  | _ :: es, live => live_allocs es live

/-! ## Reading a whole directory through `readdir` -/

/-- Modelled from the spec: `sqfs_dir_open` of the archive library ("open a
directory iterator at the resume offset").  The resume offset handed out with
an entry is that entry's next-offset, so the iterator opened at `off` yields,
in order, the entries whose next-offset lies beyond `off`, and ends cleanly. -/
def sqfs_dir_open (entries : List sqfs_dir_entry) (off : Nat) : sqfs_dir :=
  { pending := entries.filter (fun e => off < e.next_offset), status := SQFS_OK }

/-- Next-offsets of a directory are byte positions in the archive: positive
and strictly increasing along the directory. -/
def offsets_increasing (entries : List sqfs_dir_entry) : Prop :=
  (0 :: entries.map (fun e => e.next_offset)).Pairwise (fun a b => a < b)

instance (entries : List sqfs_dir_entry) : Decidable (offsets_increasing entries) := by
  unfold offsets_increasing; infer_instance

/-- What a reader learns about one entry from the reply buffer. -/
def entry_pair (e : sqfs_dir_entry) : String × Nat := (c_str e.name, e.next_offset)

/-- The (name, next-offset) pairs packed by the call that led from `s` to `t`. -/
def packed_pairs (s t : State) : List (String × Nat) :=
  (writes (issued s t)).map (fun w => (w.name, w.off))

/-- The reader of the claim: call `sqfs_ll_op_readdir` with resume offset `off`,
collect the pairs packed, and call again with the next-offset of the last pair
packed, until a call replies with a buffer of zero bytes.  `none` when a call
replies with anything but a buffer, or when `fuel` calls were not enough. -/
def readdir_all (env : Env) (ino : fuse_ino_t) (size : Nat) (fi : fuse_file_info) :
    Nat → Nat → State → Option (List (String × Nat))
  | 0, _, _ => none
  | fuel + 1, off, s =>
    let t := sqfs_ll_op_readdir env s ino size off fi
    match replies (issued s t) with
    | [Reply.buf _ len] =>
      if len = 0 then some []
      else
        match (packed_pairs s t).getLast? with
        | none => none
        | some last =>
          (readdir_all env ino size fi fuel last.2 t).map (fun rest => packed_pairs s t ++ rest)
    | _ => none

/-- The entries one `readdir` call packs from the stream `l` with budget `size`:
the longest prefix whose records fit one after the other. -/
def fitting (env : Env) : List sqfs_dir_entry → Nat → List sqfs_dir_entry
  | [], _ => []
  | e :: rest, size =>
    if env.fuse_dirent_size (strlen e.name) ≤ size then
      e :: fitting env rest (size - env.fuse_dirent_size (strlen e.name))
    else []

/-! ## Sample inputs -/

/-- The record size of libfuse: the 24-byte header plus the name, rounded up to
a multiple of 8. -/
def libfuse_dirent_size (namelen : Nat) : Nat := (24 + namelen + 7) / 8 * 8

def sample_inode_dir : sqfs_inode := { base := { mode := 0o040755, inode_number := 1 } }
def sample_inode_reg : sqfs_inode := { base := { mode := 0o100644, inode_number := 2 } }

def sample_entries : List sqfs_dir_entry :=
  [ { name := "a", inode := 2, mode := 0o100644, next_offset := 21 },
    { name := "bb", inode := 3, mode := 0o100644, next_offset := 31 },
    { name := "ccc", inode := 4, mode := 0o040755, next_offset := 42 } ]

def sample_state : State :=
  { idle_timeout_secs := 2, last_access := 100, open_refcount := 0, fuse_instance := 1,
    trace := [] }

def sample_fi : fuse_file_info := { flags := 0, fh := 7, keep_cache := 0 }

/-- An environment in which every outside call succeeds on the sample data. -/
def sample_env : Env :=
  { time := 200
    malloc := 9
    uninit_inode := sample_inode_reg
    fuse_dirent_size := libfuse_dirent_size
    sqfs_ll_inode := fun i => if i = 1 then some sample_inode_dir else some sample_inode_reg
    sqfs_stat := fun i => some { st_ino := i.base.inode_number, st_mode := i.base.mode, st_rest := 0 }
    sqfs_statfs := (0, { f_rest := 0 })
    sqfs_dir_open := fun _ off => some (sqfs_dir_open sample_entries off)
    sqfs_dir_lookup := fun _ name => some (sample_entries.find? (fun e => e.name == name))
    sqfs_inode_get := fun _ => some sample_inode_reg
    sqfs_read_range := fun _ _ size => some size
    sqfs_readlink_size := fun _ => some 3
    sqfs_readlink := fun _ => some "tgt"
    sqfs_listxattr := fun _ _ _ => (0, 10)
    sqfs_xattr_lookup := fun _ _ _ => some 5
    sqfs_enoattr := 61
    ino_fuse_num := fun e => e.inode
    ino_register := fun e => e.inode + 1000
    sigaction := 0 }

/-! ## Classification of requests and replies -/

/-- The reply is a successful open (`fuse_reply_open`). -/
def Reply.is_open : Reply → Bool
  | Reply.open _ => true
  | _ => false

/-- The request is `releasedir` or `release`. -/
def Request.is_release : Request → Bool
  | Request.releasedir _ _ => true
  | Request.release _ _ => true
  | _ => false

/-- The request is `forget`. -/
def Request.is_forget : Request → Bool
  | Request.forget _ _ => true
  | _ => false

/-- The two open-class handlers under one name: `sqfs_ll_op_opendir` when
`is_dir` is set, `sqfs_ll_op_open` otherwise. -/
def open_handler (is_dir : Bool) (env : Env) (s : State) (ino : fuse_ino_t)
    (fi : fuse_file_info) : State × fuse_file_info :=
  if is_dir then sqfs_ll_op_opendir env s ino fi else sqfs_ll_op_open env s ino fi

/-- The state after `setup_idle_timeout` armed the supervisor at time 100 with
a timeout of 2 seconds, from the initial values of the file-scope variables. -/
def armed_state : State :=
  setup_idle_timeout
    { sample_env with time := 100 }
    { idle_timeout_secs := 0, last_access := 0, open_refcount := 0, fuse_instance := 0,
      trace := [] }
    1 2

/-- The requests on which the handler returns without having executed
`last_access = time(NULL)`: every `statfs`, a `read` whose `malloc` returns
`NULL`, and a `getxattr` with a non-zero position. -/
def skips_stamp (env : Env) : Request → Bool
  | Request.statfs _ => true
  | Request.read _ _ _ _ => env.malloc == 0
  | Request.getxattr _ _ _ position => position.isSome && position != some 0
  | _ => false

/-! ## Counting opens and releases in a run -/

/-- Number of `releasedir` and `release` requests in a request sequence. -/
def releases (reqs : List (Env × Request)) : Nat :=
  reqs.countP (fun p => p.2.is_release)

/-- Number of successful opens, that is of `fuse_reply_open` replies issued,
while the session loop serves `reqs` from state `s`. -/
def successful_opens (s : State) (reqs : List (Env × Request)) : Nat :=
  (replies (issued s (fuse_session_loop s reqs))).countP Reply.is_open

/-- A session in which both opens succeed and every release follows its open,
with other requests in between. -/
def sample_session : List (Env × Request) :=
  [ (sample_env, Request.opendir 1 sample_fi),
    (sample_env, Request.getattr 1 sample_fi),
    (sample_env, Request.open 2 sample_fi),
    (sample_env, Request.release 2 sample_fi),
    (sample_env, Request.statfs 1),
    (sample_env, Request.releasedir 1 sample_fi) ]

/-! ## Basic facts about traces -/

theorem issued_of_trace_eq {s t : State} {l : List Event} (h : t.trace = s.trace ++ l) :
    issued s t = l := by
  simp [issued, h]

theorem replies_append (l₁ l₂ : List Event) : replies (l₁ ++ l₂) = replies l₁ ++ replies l₂ := by
  induction l₁ with
  | nil => rfl
  | cons e es ih => cases e <;> simp [replies, ih]

theorem writes_append (l₁ l₂ : List Event) : writes (l₁ ++ l₂) = writes l₁ ++ writes l₂ := by
  induction l₁ with
  | nil => rfl
  | cons e es ih => cases e <;> simp [writes, ih]

theorem replies_map_add_dirent (ws : List dirent_write) :
    replies (ws.map Event.fuse_add_dirent) = [] := by
  induction ws with
  | nil => rfl
  | cons w ws ih => simpa [replies] using ih

theorem writes_map_add_dirent (ws : List dirent_write) :
    writes (ws.map Event.fuse_add_dirent) = ws := by
  induction ws with
  | nil => rfl
  | cons w ws ih => simpa [writes] using ih

theorem size_t_sub_eq {a b : Nat} (hb : b ≤ a) (ha : a < SIZE_T_RANGE) :
    size_t_sub a b = a - b := by
  unfold size_t_sub
  have hb' : b % SIZE_T_RANGE = b := Nat.mod_eq_of_lt (lt_of_le_of_lt hb ha)
  rw [hb']
  have : a + SIZE_T_RANGE - b = (a - b) + SIZE_T_RANGE := by omega
  rw [this, Nat.add_mod_right]
  exact Nat.mod_eq_of_lt (by omega)

/-! ## The `readdir` loop -/

/-- What the loop of `sqfs_ll_op_readdir` does on a stream `l`: it only appends
buffer writes to the trace, it ends with `sqerr` clear or equal to the stream
status, and for a budget that is a `size_t` value the records written are those
of `fitting`, each within the budget left, with budget and position adding up
to the same total throughout. -/
theorem readdir_loop_spec (env : Env) (status : sqfs_err) (l : List sqfs_dir_entry) :
    ∀ (s : State) (pos size : Nat),
      ∃ ws : List dirent_write,
        (readdir_loop env status l s pos size).s
            = { s with trace := s.trace ++ ws.map Event.fuse_add_dirent } ∧
        ((readdir_loop env status l s pos size).sqerr = 0 ∨
          (readdir_loop env status l s pos size).sqerr = status) ∧
        (size < SIZE_T_RANGE →
          ws.map (fun w => (w.name, w.off)) = (fitting env l size).map entry_pair ∧
          ws.map (fun w => w.esize)
            = (fitting env l size).map (fun e => env.fuse_dirent_size (strlen e.name)) ∧
          (readdir_loop env status l s pos size).bufpos = pos + (ws.map (fun w => w.esize)).sum ∧
          (readdir_loop env status l s pos size).bufpos
            + (readdir_loop env status l s pos size).size = pos + size ∧
          (∀ w ∈ ws, w.esize ≤ w.avail ∧ w.pos + w.avail = pos + size) ∧
          ((readdir_loop env status l s pos size).sqerr = status ∨ (fitting env l size).length < l.length)) := by
  induction l with
  | nil =>
    intro s pos size
    exact ⟨[], by simp [readdir_loop], by simp [readdir_loop], by simp [readdir_loop, fitting]⟩
  | cons e rest ih =>
    intro s pos size
    by_cases h : env.fuse_dirent_size (strlen e.name) ≤ size
    · obtain ⟨ws, h1, h2, h3⟩ := ih
        (s.emit (Event.fuse_add_dirent
          { pos := pos, avail := size, esize := env.fuse_dirent_size (strlen e.name),
            name := c_str e.name,
            st := { st_ino := env.ino_fuse_num e, st_mode := e.mode, st_rest := 0 },
            off := e.next_offset }))
        (pos + env.fuse_dirent_size (strlen e.name))
        (size_t_sub size (env.fuse_dirent_size (strlen e.name)))
      refine ⟨dirent_write.mk pos size (env.fuse_dirent_size (strlen e.name)) (c_str e.name)
        (stat.mk (env.ino_fuse_num e) e.mode 0) e.next_offset :: ws, ?_, ?_, ?_⟩
      · simp only [readdir_loop, sqfs_ll_add_direntry, ge_iff_le, h, if_true, gt_iff_lt,
          not_lt.mpr h, if_false, h1]
        simp [State.emit]
      · simpa only [readdir_loop, sqfs_ll_add_direntry, ge_iff_le, h, if_true, gt_iff_lt,
          not_lt.mpr h, if_false] using h2
      · intro hsz
        have hsub := size_t_sub_eq h hsz
        rw [hsub] at h3
        obtain ⟨p1, p2, p3, p4, p5, p6⟩ := h3 (by omega)
        simp only [readdir_loop, sqfs_ll_add_direntry, ge_iff_le, h, if_true, gt_iff_lt,
          not_lt.mpr h, if_false]
        rw [hsub]
        refine ⟨?_, ?_, ?_, ?_, ?_, ?_⟩
        · simp [fitting, h, p1, entry_pair]
        · simp [fitting, h, p2]
        · rw [p3]; simp; omega
        · rw [p4]; omega
        · intro w hw
          rcases List.mem_cons.mp hw with rfl | hw
          · simp [h]
          · have := p5 w hw
            omega
        · rcases p6 with p6 | p6
          · exact Or.inl p6
          · right; simp [fitting, h]; exact p6
    · refine ⟨[], ?_, ?_, ?_⟩
      · simp [readdir_loop, sqfs_ll_add_direntry, h, not_le.mp h]
      · simp [readdir_loop, sqfs_ll_add_direntry, h, not_le.mp h, SQFS_OK]
      · intro _
        simp [readdir_loop, sqfs_ll_add_direntry, h, not_le.mp h, fitting]

/-! ## `sqfs_ll_op_readdir` -/

/-- Shape of a `readdir` call: the handler stamps `last_access`, leaves the other
variables alone, and appends to the trace either an error reply, or, when the
iterator opens and the buffer is allocated, the loop's buffer writes followed
by one reply and the release of the buffer. -/
theorem readdir_shape (env : Env) (s : State) (ino : fuse_ino_t) (size off : Nat)
    (fi : fuse_file_info) :
    ∃ l : List Event,
      sqfs_ll_op_readdir env s ino size off fi
        = { s with last_access := env.time, trace := s.trace ++ l } ∧
      ((env.sqfs_dir_open fi.fh off = none ∧
          l = [Event.reply (Reply.err EINVAL), Event.free 0]) ∨
       (env.malloc = 0 ∧
          l = [Event.malloc 0, Event.reply (Reply.err ENOMEM), Event.free 0]) ∨
       (∃ (dir : sqfs_dir) (ws : List dirent_write) (r : Reply),
          env.sqfs_dir_open fi.fh off = some dir ∧ env.malloc ≠ 0 ∧
          l = Event.malloc env.malloc :: ws.map Event.fuse_add_dirent
                ++ [Event.reply r, Event.free env.malloc] ∧
          ((r = Reply.err EIO ∧ dir.status ≠ 0) ∨
            ∃ len, r = Reply.buf env.malloc len ∧
              (size < SIZE_T_RANGE → len = (ws.map (fun w => w.esize)).sum ∧ len ≤ size)) ∧
          (size < SIZE_T_RANGE →
            ws.map (fun w => (w.name, w.off)) = (fitting env dir.pending size).map entry_pair ∧
            ws.map (fun w => w.esize)
              = (fitting env dir.pending size).map (fun e => env.fuse_dirent_size (strlen e.name)) ∧
            (∀ w ∈ ws, w.esize ≤ w.avail ∧ w.pos + w.avail = size) ∧
            (dir.status = 0 →
              r = Reply.buf env.malloc (ws.map (fun w => w.esize)).sum)))) := by
  unfold sqfs_ll_op_readdir
  cases hopen : env.sqfs_dir_open fi.fh off with
  | none =>
    refine ⟨[Event.reply (Reply.err EINVAL), Event.free 0], ?_, Or.inl ⟨rfl, rfl⟩⟩
    simp [free, fuse_reply_err, State.emit, State.stamp]
  | some dir =>
    by_cases hm : env.malloc = 0
    · refine ⟨[Event.malloc 0, Event.reply (Reply.err ENOMEM), Event.free 0], ?_,
        Or.inr (Or.inl ⟨hm, rfl⟩)⟩
      simp [malloc, free, fuse_reply_err, State.emit, State.stamp, hm]
    · obtain ⟨ws, h1, h2, h3⟩ := readdir_loop_spec env dir.status dir.pending
        ((s.stamp env).emit (Event.malloc env.malloc)) 0 size
      simp only [malloc, hm, if_false]
      generalize readdir_loop env dir.status dir.pending
        ((s.stamp env).emit (Event.malloc env.malloc)) 0 size = v at h1 h2 h3 ⊢
      have h1' : v.s = { s with last_access := env.time,
                                trace := s.trace ++ Event.malloc env.malloc
                                  :: ws.map Event.fuse_add_dirent } := by
        rw [h1]; simp [State.emit, State.stamp]
      by_cases herr : v.sqerr = 0
      · refine ⟨_, ?_, Or.inr (Or.inr ⟨dir, ws, Reply.buf env.malloc v.bufpos, rfl, hm, rfl,
          Or.inr ⟨_, rfl, ?_⟩, ?_⟩)⟩
        · simp [herr, free, fuse_reply_buf, State.emit, h1']
        · intro hsz
          obtain ⟨-, -, p3, p4, -, -⟩ := h3 hsz
          constructor
          · simpa using p3
          · omega
        · intro hsz
          obtain ⟨p1, p2, p3, -, p5, -⟩ := h3 hsz
          refine ⟨p1, p2, ?_, ?_⟩
          · intro w hw
            simpa using p5 w hw
          · intro _
            simp [p3]
      · have hst : dir.status ≠ 0 := by
          rcases h2 with h2 | h2
          · exact absurd h2 herr
          · rw [← h2]; exact herr
        refine ⟨_, ?_, Or.inr (Or.inr ⟨dir, ws, Reply.err EIO, rfl, hm, rfl,
          Or.inl ⟨rfl, hst⟩, ?_⟩)⟩
        · simp [herr, free, fuse_reply_err, State.emit, h1']
        · intro hsz
          obtain ⟨p1, p2, -, -, p5, -⟩ := h3 hsz
          refine ⟨p1, p2, ?_, ?_⟩
          · intro w hw
            simpa using p5 w hw
          · intro h0
            exact absurd h0 hst

/-- C2: in a `sqfs_ll_op_readdir` call with requested size `size` (a `size_t`
value), every record written to the reply buffer has an encoded size no larger
than the budget left at that point, the budget left always equals `size` minus
the bytes packed so far (so the `size_t` subtraction never wraps, at a write
and at the exit of the loop on any stream), and a buffer reply has as length
the sum of the records written, which is at most `size`. -/
theorem readdir_respects_budget (env : Env) (s : State) (ino : fuse_ino_t) (size off : Nat)
    (fi : fuse_file_info) (hsize : size < SIZE_T_RANGE) :
    (∀ w ∈ writes (issued s (sqfs_ll_op_readdir env s ino size off fi)),
        w.esize ≤ w.avail ∧ w.pos + w.avail = size ∧ w.pos + w.esize ≤ size) ∧
    (∀ (status : sqfs_err) (l : List sqfs_dir_entry) (t : State),
        (readdir_loop env status l t 0 size).bufpos
          + (readdir_loop env status l t 0 size).size = size) ∧
    (∀ b len, Reply.buf b len ∈ replies (issued s (sqfs_ll_op_readdir env s ino size off fi)) →
        len = ((writes (issued s (sqfs_ll_op_readdir env s ino size off fi))).map
                (fun w => w.esize)).sum ∧
        len ≤ size) := by
  obtain ⟨l, heq, hl⟩ := readdir_shape env s ino size off fi
  have hiss : issued s (sqfs_ll_op_readdir env s ino size off fi) = l :=
    issued_of_trace_eq (by rw [heq])
  rw [hiss]
  refine ⟨?_, ?_, ?_⟩
  · rcases hl with ⟨-, rfl⟩ | ⟨-, rfl⟩ | ⟨dir, ws, r, -, -, rfl, -, h⟩
    · simp [writes]
    · simp [writes]
    · obtain ⟨-, -, h5, -⟩ := h hsize
      intro w hw
      have hw' : w ∈ ws := by
        simpa [writes, writes_append, writes_map_add_dirent] using hw
      have := h5 w hw'
      omega
  · intro status l t
    obtain ⟨ws, -, -, h3⟩ := readdir_loop_spec env status l t 0 size
    obtain ⟨-, -, -, p4, -, -⟩ := h3 hsize
    omega
  · rcases hl with ⟨-, rfl⟩ | ⟨-, rfl⟩ | ⟨dir, ws, r, -, -, rfl, hr, -⟩
    · simp [replies]
    · simp [replies]
    · intro b len hmem
      have hmem' : Reply.buf b len = r := by
        simpa [replies, replies_append, replies_map_add_dirent] using hmem
      rcases hr with ⟨rfl, -⟩ | ⟨len', rfl, hlen⟩
      · cases hmem'
      · injection hmem' with _ hlen'
        subst hlen'
        simpa [writes, writes_append, writes_map_add_dirent] using hlen hsize

/-- C2 on the sample directory read with a budget of 64 bytes: the reply is a
buffer of 64 bytes, the sum of the two records written. -/
theorem readdir_respects_budget_witness :
    64 < SIZE_T_RANGE ∧
    Reply.buf 9 64
      ∈ replies (issued sample_state (sqfs_ll_op_readdir sample_env sample_state 1 64 0 sample_fi)) ∧
    (64 = ((writes (issued sample_state
              (sqfs_ll_op_readdir sample_env sample_state 1 64 0 sample_fi))).map
            (fun w => w.esize)).sum ∧
      64 ≤ 64) :=
  ⟨by decide, by decide,
   (readdir_respects_budget sample_env sample_state 1 64 0 sample_fi (by decide)).2.2 9 64
     (by decide)⟩

/-! ## Reading a directory to the end -/

theorem fitting_prefix (env : Env) (l : List sqfs_dir_entry) :
    ∀ size, ∃ post, l = fitting env l size ++ post := by
  induction l with
  | nil => intro size; exact ⟨[], rfl⟩
  | cons e rest ih =>
    intro size
    by_cases h : env.fuse_dirent_size (strlen e.name) ≤ size
    · obtain ⟨post, hpost⟩ := ih (size - env.fuse_dirent_size (strlen e.name))
      refine ⟨post, ?_⟩
      simp only [fitting, h, if_true, List.cons_append]
      rw [← hpost]
    · exact ⟨e :: rest, by simp [fitting, h]⟩

/-- In a list with strictly increasing next-offsets, the entries beyond the
next-offset of `x` are exactly those that follow `x`. -/
theorem filter_after (init post : List sqfs_dir_entry) (x : sqfs_dir_entry)
    (h : (init ++ x :: post).Pairwise (fun a b => a.next_offset < b.next_offset)) :
    (init ++ x :: post).filter (fun e => x.next_offset < e.next_offset) = post := by
  rw [List.pairwise_append] at h
  obtain ⟨-, h2, h3⟩ := h
  rw [List.pairwise_cons] at h2
  obtain ⟨h2, -⟩ := h2
  rw [List.filter_append, List.filter_cons]
  have hinit : init.filter (fun e => decide (x.next_offset < e.next_offset)) = [] := by
    rw [List.filter_eq_nil_iff]
    intro a ha
    have := h3 a ha x (List.mem_cons_self _ _)
    simp only [decide_eq_true_eq]
    omega
  have hpost : post.filter (fun e => decide (x.next_offset < e.next_offset)) = post := by
    rw [List.filter_eq_self]
    intro b hb
    simpa using h2 b hb
  simp [hinit, hpost]

theorem offsets_increasing_pairwise {entries : List sqfs_dir_entry}
    (h : offsets_increasing entries) :
    entries.Pairwise (fun a b => a.next_offset < b.next_offset) ∧
      ∀ e ∈ entries, 0 < e.next_offset := by
  unfold offsets_increasing at h
  rw [List.pairwise_cons] at h
  obtain ⟨h1, h2⟩ := h
  refine ⟨?_, ?_⟩
  · rw [List.pairwise_map] at h2
    exact h2
  · intro e he
    exact h1 _ (List.mem_map_of_mem _ he)

/-- Resuming after the last entry of a non-empty packed prefix yields exactly
the entries that were not packed. -/
theorem resume_after_packed {entries : List sqfs_dir_entry} (hinc : offsets_increasing entries)
    (off : Nat) (init post : List sqfs_dir_entry) (x : sqfs_dir_entry)
    (hl : entries.filter (fun e => off < e.next_offset) = init ++ x :: post) :
    entries.filter (fun e => x.next_offset < e.next_offset) = post := by
  have hpw := (offsets_increasing_pairwise hinc).1
  have hsub : (entries.filter (fun e => decide (off < e.next_offset))).Pairwise
      (fun a b => a.next_offset < b.next_offset) :=
    hpw.sublist (List.filter_sublist _)
  have hx : x ∈ entries.filter (fun e => decide (off < e.next_offset)) := by
    rw [hl]; simp
  have hoff : off < x.next_offset := by
    simpa using (List.mem_filter.mp hx).2
  have hff : entries.filter (fun e => decide (x.next_offset < e.next_offset))
      = (entries.filter (fun e => decide (off < e.next_offset))).filter
          (fun e => decide (x.next_offset < e.next_offset)) := by
    rw [List.filter_filter]
    apply List.filter_congr
    intro e _
    by_cases hq : x.next_offset < e.next_offset
    · have : off < e.next_offset := by omega
      simp [hq, this]
    · simp [hq]
  rw [hff, hl]
  rw [hl] at hsub
  exact filter_after init post x hsub

/-- The reader started at resume offset `off` collects exactly the entries that
lie beyond `off`, provided every record fits the budget on its own. -/
theorem readdir_all_from (env : Env) (ino : fuse_ino_t) (size : Nat) (fi : fuse_file_info)
    (entries : List sqfs_dir_entry)
    (hopen : ∀ off, env.sqfs_dir_open fi.fh off = some (sqfs_dir_open entries off))
    (hmalloc : env.malloc ≠ 0)
    (hinc : offsets_increasing entries)
    (hfit : ∀ e ∈ entries, 0 < env.fuse_dirent_size (strlen e.name) ∧
      env.fuse_dirent_size (strlen e.name) ≤ size)
    (hsize : size < SIZE_T_RANGE) :
    ∀ (fuel off : Nat) (s : State),
      (entries.filter (fun e => off < e.next_offset)).length < fuel →
      readdir_all env ino size fi fuel off s
        = some ((entries.filter (fun e => off < e.next_offset)).map entry_pair) := by
  intro fuel
  induction fuel with
  | zero => intro off s h; omega
  | succ fuel ih =>
    intro off s hlen
    obtain ⟨l, heq, hl⟩ := readdir_shape env s ino size off fi
    have hiss : issued s (sqfs_ll_op_readdir env s ino size off fi) = l :=
      issued_of_trace_eq (by rw [heq])
    rcases hl with ⟨hnone, -⟩ | ⟨hm, -⟩ | ⟨dir, ws, r, hdir, -, rfl, -, h⟩
    · rw [hopen] at hnone; cases hnone
    · exact absurd hm hmalloc
    · rw [hopen] at hdir
      injection hdir with hdir
      subst hdir
      obtain ⟨p1, p2, -, p4⟩ := h hsize
      have hr := p4 rfl
      subst hr
      have hpend : (sqfs_dir_open entries off).pending
          = entries.filter (fun e => decide (off < e.next_offset)) := rfl
      rw [hpend] at p1 p2
      have hrep : replies (issued s (sqfs_ll_op_readdir env s ino size off fi))
          = [Reply.buf env.malloc (ws.map (fun w => w.esize)).sum] := by
        rw [hiss]; simp [replies, replies_append, replies_map_add_dirent]
      have hpp : packed_pairs s (sqfs_ll_op_readdir env s ino size off fi)
          = (fitting env (entries.filter (fun e => decide (off < e.next_offset))) size).map
              entry_pair := by
        unfold packed_pairs
        rw [hiss, ← p1]; simp [writes, writes_append, writes_map_add_dirent]
      obtain ⟨post, hpost⟩ := fitting_prefix env
        (entries.filter (fun e => decide (off < e.next_offset))) size
      simp only [readdir_all, hrep, hpp]
      rw [p2]
      rcases List.eq_nil_or_concat
        (fitting env (entries.filter (fun e => decide (off < e.next_offset))) size)
        with hnil | ⟨init, x, hcat⟩
      · -- nothing was packed: the stream at `off` is empty
        have hempty : entries.filter (fun e => decide (off < e.next_offset)) = [] := by
          cases hL : entries.filter (fun e => decide (off < e.next_offset)) with
          | nil => rfl
          | cons e rest =>
            have he : e ∈ entries := by
              have : e ∈ entries.filter (fun e => decide (off < e.next_offset)) := by
                rw [hL]; simp
              exact (List.mem_filter.mp this).1
            rw [hL] at hnil
            simp [fitting, (hfit e he).2] at hnil
        simp [hempty, fitting]
      · rw [List.concat_eq_append] at hcat
        rw [hcat] at hpost ⊢
        have hx : x ∈ entries := by
          have : x ∈ entries.filter (fun e => decide (off < e.next_offset)) := by
            rw [hpost]; simp
          exact (List.mem_filter.mp this).1
        have hsum : (List.map (fun e => env.fuse_dirent_size (strlen e.name)) (init ++ [x])).sum
            ≠ 0 := by
          have := (hfit x hx).1
          simp
          omega
        have hpost' : entries.filter (fun e => decide (off < e.next_offset))
            = init ++ x :: post := by
          rw [hpost]; simp
        have hres := resume_after_packed hinc off init post x hpost'
        have hlen' : (entries.filter (fun e => decide (x.next_offset < e.next_offset))).length
            < fuel := by
          rw [hres]
          rw [hpost'] at hlen
          simp at hlen
          omega
        have hrec := ih x.next_offset (sqfs_ll_op_readdir env s ino size off fi) hlen'
        rw [if_neg hsum]
        simp only [List.map_append, List.map_cons, List.map_nil,
          List.getLast?_concat, entry_pair, hrec, Option.map_some']
        rw [hres, hpost']
        simp [entry_pair]

/-- C1 (amended): for a directory whose iteration never fails and a budget that
holds every single record of it, the reader that starts at resume offset 0 and
resumes at the next-offset of the last entry packed, until a call replies with
zero bytes, obtains exactly the directory's entries, each once and in order. -/
theorem readdir_all_complete (env : Env) (ino : fuse_ino_t) (size : Nat) (fi : fuse_file_info)
    (entries : List sqfs_dir_entry) (s : State) (fuel : Nat)
    (hopen : ∀ off, env.sqfs_dir_open fi.fh off = some (sqfs_dir_open entries off))
    (hmalloc : env.malloc ≠ 0)
    (hinc : offsets_increasing entries)
    (hfit : ∀ e ∈ entries, 0 < env.fuse_dirent_size (strlen e.name) ∧
      env.fuse_dirent_size (strlen e.name) ≤ size)
    (hsize : size < SIZE_T_RANGE)
    (hfuel : entries.length < fuel) :
    readdir_all env ino size fi fuel 0 s = some (entries.map entry_pair) := by
  have hall : entries.filter (fun e => decide (0 < e.next_offset)) = entries := by
    rw [List.filter_eq_self]
    intro e he
    simpa using (offsets_increasing_pairwise hinc).2 e he
  have h := readdir_all_from env ino size fi entries hopen hmalloc hinc hfit hsize fuel 0 s
    (by rw [hall]; exact hfuel)
  rw [hall] at h
  exact h

/-- The amended C1 applies to the sample directory read with a budget of 64
bytes, two records per call. -/
theorem readdir_all_complete_witness :
    offsets_increasing sample_entries ∧
    (∀ e ∈ sample_entries, 0 < sample_env.fuse_dirent_size (strlen e.name) ∧
      sample_env.fuse_dirent_size (strlen e.name) ≤ 64) ∧
    readdir_all sample_env 1 64 sample_fi 4 0 sample_state
      = some [("a", 21), ("bb", 31), ("ccc", 42)] :=
  ⟨by decide, by decide,
   readdir_all_complete sample_env 1 64 sample_fi sample_entries sample_state 4
     (fun _ => rfl) (by decide) (by decide) (by decide) (by decide) (by decide)⟩

/-- C1 as stated fails: over the sample directory, whose iteration never fails,
a budget of 16 bytes holds no record (each takes 32), so the first call already
replies with zero bytes and the reader ends with no entry at all, whatever the
number of calls it is allowed. -/
theorem readdir_all_small_budget_stops :
    (∀ off, sample_env.sqfs_dir_open sample_fi.fh off = some (sqfs_dir_open sample_entries off)) ∧
    replies (issued sample_state (sqfs_ll_op_readdir sample_env sample_state 1 16 0 sample_fi))
      = [Reply.buf 9 0] ∧
    (∀ fuel, readdir_all sample_env 1 16 sample_fi (fuel + 1) 0 sample_state = some []) ∧
    sample_entries.map entry_pair ≠ [] :=
  ⟨fun _ => rfl, by decide,
   fun _ => by
     have h : replies (issued sample_state
         (sqfs_ll_op_readdir sample_env sample_state 1 16 0 sample_fi)) = [Reply.buf 9 0] := by
       decide
     simp only [readdir_all, h, if_true],
   by decide⟩

/-! ## All handlers -/

theorem sqfs_ll_iget_cases (env : Env) (s : State) (i : fuse_ino_t) :
    (∃ lli, sqfs_ll_iget env s i = (s, some lli)) ∨
      sqfs_ll_iget env s i = (fuse_reply_err s ENOENT, none) := by
  unfold sqfs_ll_iget
  split
  · exact Or.inl ⟨_, rfl⟩
  · split
    · exact Or.inl ⟨_, rfl⟩
    · exact Or.inr rfl

/-- Whether `sqfs_ll_iget` resolves, and to what, does not depend on the state. -/
theorem sqfs_ll_iget_snd (env : Env) (s t : State) (i : fuse_ino_t) :
    (sqfs_ll_iget env s i).2 = (sqfs_ll_iget env t i).2 := by
  unfold sqfs_ll_iget
  split
  · rfl
  · split <;> rfl

/-- What any handler of the table does to the state: it appends to the trace,
never touches the timeout or the session pointer, issues exactly one reply
(the empty acknowledgment exactly for `forget`), and changes `open_refcount`
by `++` when it replies with an open, by `--` when it is a release, and not at
all otherwise. -/
theorem sqfs_ll_ops_summary (env : Env) (s : State) (req : Request) :
    ∃ (l : List Event) (r : Reply),
      (sqfs_ll_ops env s req).trace = s.trace ++ l ∧
      (sqfs_ll_ops env s req).idle_timeout_secs = s.idle_timeout_secs ∧
      (sqfs_ll_ops env s req).fuse_instance = s.fuse_instance ∧
      replies l = [r] ∧
      (r = Reply.none ↔ req.is_forget = true) ∧
      (r.is_open = true → req.is_release = false) ∧
      (sqfs_ll_ops env s req).open_refcount
        = (if r.is_open then to_sig_atomic_t (s.open_refcount + 1)
           else if req.is_release then to_sig_atomic_t (s.open_refcount - 1)
           else s.open_refcount) := by
  cases req with
  | getattr ino fi =>
    rcases sqfs_ll_iget_cases env (s.stamp env) ino with ⟨lli, h⟩ | h <;>
      simp only [sqfs_ll_ops, sqfs_ll_op_getattr, h, Request.is_release, Request.is_forget,
        Bool.false_eq_true, if_false] <;> (repeat' split) <;>
      simp [fuse_reply_err, fuse_reply_attr, State.emit, State.stamp, replies,
        Reply.is_open, Request.is_release, Request.is_forget]
  | opendir ino fi =>
    rcases sqfs_ll_iget_cases env ((s.stamp env).emit (Event.malloc env.malloc)) ino
      with ⟨lli, h⟩ | h <;>
      simp only [sqfs_ll_ops, sqfs_ll_op_opendir, malloc, h, Request.is_release, Request.is_forget,
        Bool.false_eq_true, if_false] <;> (repeat' split) <;>
      simp [fuse_reply_err, fuse_reply_open, free, State.emit, State.stamp, replies,
        Reply.is_open, Request.is_release, Request.is_forget]
  | releasedir ino fi =>
    simp [sqfs_ll_ops, sqfs_ll_op_releasedir, fuse_reply_err, free, State.emit, State.stamp,
      replies, Reply.is_open, Request.is_release, Request.is_forget]
  | readdir ino size off fi =>
    obtain ⟨l, heq, hl⟩ := readdir_shape env s ino size off fi
    rw [show sqfs_ll_ops env s (Request.readdir ino size off fi)
        = sqfs_ll_op_readdir env s ino size off fi from rfl, heq]
    rcases hl with ⟨-, rfl⟩ | ⟨-, rfl⟩ | ⟨dir, ws, r, -, -, rfl, hr, -⟩
    · exact ⟨_, Reply.err EINVAL, rfl, rfl, rfl, by simp [replies], by simp [Request.is_forget],
        by simp [Reply.is_open], by simp [Reply.is_open, Request.is_release]⟩
    · exact ⟨_, Reply.err ENOMEM, rfl, rfl, rfl, by simp [replies], by simp [Request.is_forget],
        by simp [Reply.is_open], by simp [Reply.is_open, Request.is_release]⟩
    · refine ⟨_, r, rfl, rfl, rfl, ?_, ?_, ?_, ?_⟩
      · simp [replies, replies_append, replies_map_add_dirent]
      · rcases hr with ⟨rfl, -⟩ | ⟨len, rfl, -⟩ <;> simp [Request.is_forget]
      · rcases hr with ⟨rfl, -⟩ | ⟨len, rfl, -⟩ <;> simp [Reply.is_open]
      · rcases hr with ⟨rfl, -⟩ | ⟨len, rfl, -⟩ <;> simp [Reply.is_open, Request.is_release]
  | lookup parent name =>
    rcases sqfs_ll_iget_cases env (s.stamp env) parent with ⟨lli, h⟩ | h <;>
      simp only [sqfs_ll_ops, sqfs_ll_op_lookup, h, Request.is_release, Request.is_forget,
        Bool.false_eq_true, if_false] <;> (repeat' split) <;>
      simp [fuse_reply_err, fuse_reply_entry, State.emit, State.stamp, replies,
        Reply.is_open, Request.is_release, Request.is_forget]
  | «open» ino fi =>
    simp only [sqfs_ll_ops, sqfs_ll_op_open, malloc, Request.is_release, Request.is_forget,
      Bool.false_eq_true, if_false]
    (repeat' split) <;>
      simp [fuse_reply_err, fuse_reply_open, free, State.emit, State.stamp, replies,
        Reply.is_open, Request.is_release, Request.is_forget]
  | create parent name mode fi =>
    simp [sqfs_ll_ops, sqfs_ll_op_create, fuse_reply_err, State.emit, State.stamp,
      replies, Reply.is_open, Request.is_release, Request.is_forget]
  | release ino fi =>
    simp [sqfs_ll_ops, sqfs_ll_op_release, fuse_reply_err, free, State.emit, State.stamp,
      replies, Reply.is_open, Request.is_release, Request.is_forget]
  | read ino size off fi =>
    simp only [sqfs_ll_ops, sqfs_ll_op_read, malloc, Request.is_release, Request.is_forget,
      Bool.false_eq_true, if_false]
    (repeat' split) <;>
      simp [fuse_reply_err, fuse_reply_buf, free, State.emit, State.stamp, replies,
        Reply.is_open, Request.is_release, Request.is_forget]
  | readlink ino =>
    rcases sqfs_ll_iget_cases env (s.stamp env) ino with ⟨lli, h⟩ | h <;>
      simp only [sqfs_ll_ops, sqfs_ll_op_readlink, malloc, h, Request.is_release, Request.is_forget,
        Bool.false_eq_true, if_false] <;> (repeat' split) <;>
      simp [fuse_reply_err, fuse_reply_readlink, free, State.emit, State.stamp, replies,
        Reply.is_open, Request.is_release, Request.is_forget]
  | listxattr ino size =>
    rcases sqfs_ll_iget_cases env (s.stamp env) ino with ⟨lli, h⟩ | h <;>
      simp only [sqfs_ll_ops, sqfs_ll_op_listxattr, malloc, h, Request.is_release, Request.is_forget,
        Bool.false_eq_true, if_false] <;> (repeat' split) <;>
      simp_all [fuse_reply_err, fuse_reply_buf, fuse_reply_xattr, free, State.emit,
        State.stamp, replies, Reply.is_open, Request.is_release, Request.is_forget]
  | getxattr ino name size position =>
    rcases sqfs_ll_iget_cases env (s.stamp env) ino with ⟨lli, h⟩ | h <;>
      simp only [sqfs_ll_ops, sqfs_ll_op_getxattr, malloc, h, Request.is_release, Request.is_forget,
        Bool.false_eq_true, if_false] <;> (repeat' split) <;>
      simp [fuse_reply_err, fuse_reply_buf, fuse_reply_xattr, free, State.emit,
        State.stamp, replies, Reply.is_open, Request.is_release, Request.is_forget]
  | forget ino nlookup =>
    simp [sqfs_ll_ops, sqfs_ll_op_forget, sqfs_ll_iget, fuse_reply_none, State.emit,
      State.stamp, replies, Reply.is_open, Request.is_release, Request.is_forget]
  | statfs ino =>
    simp only [sqfs_ll_ops, stfs_ll_op_statfs, Request.is_release, Request.is_forget,
      Bool.false_eq_true, if_false]
    (repeat' split) <;>
      simp [fuse_reply_err, fuse_reply_statfs, State.emit, replies,
        Reply.is_open, Request.is_release, Request.is_forget]


/-- C9: whatever the request and whatever the archive, the registry and the
allocator return, a handler issues exactly one reply before it returns (a
failing `sqfs_ll_iget` having issued the error reply itself); that reply is the
empty acknowledgment `fuse_reply_none` for `forget`, and for no other handler. -/
theorem each_handler_replies_once (env : Env) (s : State) (req : Request) :
    ∃ r : Reply,
      replies (issued s (sqfs_ll_ops env s req)) = [r] ∧
      (r = Reply.none ↔ ∃ ino nlookup, req = Request.forget ino nlookup) := by
  obtain ⟨l, r, htrace, -, -, hr, hnone, -, -⟩ := sqfs_ll_ops_summary env s req
  refine ⟨r, ?_, ?_⟩
  · rw [issued_of_trace_eq htrace]; exact hr
  · rw [hnone]
    cases req <;> simp [Request.is_forget]

/-! ## The open-handle count along a session -/

theorem fuse_session_loop_trace (reqs : List (Env × Request)) :
    ∀ s : State, ∃ l, (fuse_session_loop s reqs).trace = s.trace ++ l := by
  induction reqs with
  | nil => intro s; exact ⟨[], by simp [fuse_session_loop]⟩
  | cons p rest ih =>
    intro s
    obtain ⟨l, r, htrace, -⟩ := sqfs_ll_ops_summary p.1 s p.2
    obtain ⟨l', hl'⟩ := ih (sqfs_ll_ops p.1 s p.2)
    exact ⟨l ++ l', by simp [fuse_session_loop, hl', htrace]⟩

theorem to_sig_atomic_t_of_range {x : Int} (hlo : INT_MIN ≤ x) (hhi : x ≤ INT_MAX) :
    to_sig_atomic_t x = x := by
  unfold to_sig_atomic_t
  unfold INT_MIN at hlo
  unfold INT_MAX at hhi
  omega

/-- Along any session the open-handle count is, as a 32-bit value, the initial
count plus the number of successful opens minus the number of releases. -/
theorem open_refcount_balance (reqs : List (Env × Request)) :
    ∀ s : State, to_sig_atomic_t s.open_refcount = s.open_refcount →
      (fuse_session_loop s reqs).open_refcount
        = to_sig_atomic_t
            (s.open_refcount + (successful_opens s reqs : Int) - (releases reqs : Int)) := by
  induction reqs with
  | nil =>
    intro s hs
    simp [fuse_session_loop, successful_opens, releases, issued, replies, hs]
  | cons p rest ih =>
    intro s hs
    obtain ⟨env, req⟩ := p
    obtain ⟨l, r, htrace, -, -, hr, -, hexcl, hcount⟩ := sqfs_ll_ops_summary env s req
    obtain ⟨l', hl'⟩ := fuse_session_loop_trace rest (sqfs_ll_ops env s req)
    have hiss : issued s (fuse_session_loop (sqfs_ll_ops env s req) rest) = l ++ l' :=
      issued_of_trace_eq (by rw [hl', htrace, List.append_assoc])
    have hiss' : issued (sqfs_ll_ops env s req)
        (fuse_session_loop (sqfs_ll_ops env s req) rest) = l' :=
      issued_of_trace_eq hl'
    have hso : successful_opens s ((env, req) :: rest)
        = (if r.is_open then 1 else 0) + successful_opens (sqfs_ll_ops env s req) rest := by
      simp only [successful_opens, fuse_session_loop, hiss, hiss', replies_append, hr,
        List.countP_append, List.countP_cons, List.countP_nil]
      simp
    have hrel : releases ((env, req) :: rest)
        = (if req.is_release then 1 else 0) + releases rest := by
      simp only [releases, List.countP_cons]
      omega
    have hstep_range : to_sig_atomic_t (sqfs_ll_ops env s req).open_refcount
        = (sqfs_ll_ops env s req).open_refcount := by
      rw [hcount]
      split
      · unfold to_sig_atomic_t; omega
      · split
        · unfold to_sig_atomic_t; omega
        · exact hs
    have hstep := ih (sqfs_ll_ops env s req) hstep_range
    simp only [fuse_session_loop]
    rw [hstep, hcount, hso, hrel]
    cases hopen : r.is_open with
    | true =>
      have hnr := hexcl hopen
      simp only [hnr, if_true, Bool.false_eq_true, if_false]
      unfold to_sig_atomic_t
      push_cast
      omega
    | false =>
      cases hrl : req.is_release with
      | true =>
        simp only [Bool.false_eq_true, if_false, if_true]
        unfold to_sig_atomic_t
        push_cast
        omega
      | false =>
        simp only [Bool.false_eq_true, if_false]
        congr 1
        push_cast
        omega

/-- C5: starting from `open_refcount = 0`, a session with as many successful
`opendir`/`open` requests as `releasedir`/`release` requests, interleaved with
any other requests, ends with `open_refcount = 0`; and when the calls are
paired, every release coming after its open (each prefix holds at least as many
successful opens as releases), with no more than `INT_MAX` handles open at a
time, the 32-bit count is never negative after any prefix. -/
theorem open_refcount_paired (s : State) (reqs : List (Env × Request))
    (h0 : s.open_refcount = 0)
    (hN : successful_opens s reqs = releases reqs) :
    (fuse_session_loop s reqs).open_refcount = 0 ∧
    ((∀ k, releases (reqs.take k) ≤ successful_opens s (reqs.take k)) →
      (∀ k, (successful_opens s (reqs.take k) : Int) - (releases (reqs.take k) : Int)
        ≤ INT_MAX) →
      ∀ k, 0 ≤ (fuse_session_loop s (reqs.take k)).open_refcount) := by
  have hs : to_sig_atomic_t s.open_refcount = s.open_refcount := by
    rw [h0]; rfl
  refine ⟨?_, ?_⟩
  · rw [open_refcount_balance reqs s hs, h0, hN]
    have : (0 : Int) + (releases reqs : Int) - (releases reqs : Int) = 0 := by omega
    rw [this]; rfl
  · intro hpaired hbound k
    rw [open_refcount_balance (reqs.take k) s hs, h0]
    have h1 := hpaired k
    have h2 := hbound k
    rw [to_sig_atomic_t_of_range (by unfold INT_MIN; omega) (by omega)]
    omega

/-- C5 applies to the sample session: two successful opens, two releases, each
release after its open, at most two handles open at a time. -/
theorem open_refcount_paired_witness :
    successful_opens sample_state sample_session = 2 ∧
    releases sample_session = 2 ∧
    (fuse_session_loop sample_state sample_session).open_refcount = 0 ∧
    0 ≤ (fuse_session_loop sample_state (sample_session.take 3)).open_refcount :=
  have hall : ∀ k, releases (sample_session.take k)
        ≤ successful_opens sample_state (sample_session.take k) ∧
      (successful_opens sample_state (sample_session.take k) : Int)
        - (releases (sample_session.take k) : Int) ≤ INT_MAX := by
    intro k
    have h : ∀ j ∈ List.range 7, releases (sample_session.take j)
          ≤ successful_opens sample_state (sample_session.take j) ∧
        (successful_opens sample_state (sample_session.take j) : Int)
          - (releases (sample_session.take j) : Int) ≤ INT_MAX := by
      decide
    by_cases hk : k < 7
    · exact h k (List.mem_range.mpr hk)
    · have hlen : sample_session.length ≤ k := by
        have : sample_session.length = 6 := rfl
        omega
      rw [List.take_of_length_le hlen]
      decide
  ⟨by decide, by decide,
   (open_refcount_paired sample_state sample_session (by decide) (by decide)).1,
   (open_refcount_paired sample_state sample_session (by decide) (by decide)).2
     (fun k => (hall k).1) (fun k => (hall k).2) 3⟩

/-! ## `getxattr`, `lookup` and `getattr` -/

theorem sqfs_ll_iget_resolved {env : Env} {s : State} {i : fuse_ino_t} {lli : sqfs_ll_i}
    (h : (sqfs_ll_iget env s i).2 = some lli) : sqfs_ll_iget env s i = (s, some lli) := by
  rcases sqfs_ll_iget_cases env s i with ⟨lli', h'⟩ | h'
  · rw [h'] at h
    simp only [Option.some.injEq] at h
    rw [h', h]
  · rw [h'] at h
    cases h

/-- C3: a `getxattr` request on a resolvable inode, whose buffer allocation
succeeds and whose attribute lookup succeeds with needed size `r`, is answered
with no-such-attribute when `r = 0`; otherwise with the size `r` alone when the
requested size is 0, with `ERANGE` when the requested size is positive and below
`r`, and with a data buffer of exactly `r` bytes when it is at least `r`. -/
theorem getxattr_reply (env : Env) (s : State) (ino : fuse_ino_t) (name : String)
    (size : Nat) (position : Option Nat) (lli : sqfs_ll_i) (r : Nat)
    (hres : (sqfs_ll_iget env s ino).2 = some lli)
    (halloc : Event.malloc env.malloc
      ∈ issued s (sqfs_ll_op_getxattr env s ino name size position))
    (hnonnull : env.malloc ≠ 0)
    (hlookup : env.sqfs_xattr_lookup lli.inode name size = some r) :
    (r = 0 → replies (issued s (sqfs_ll_op_getxattr env s ino name size position))
        = [Reply.err env.sqfs_enoattr]) ∧
    (0 < r → size = 0 →
      replies (issued s (sqfs_ll_op_getxattr env s ino name size position))
        = [Reply.xattr r]) ∧
    (0 < r → 0 < size → size < r →
      replies (issued s (sqfs_ll_op_getxattr env s ino name size position))
        = [Reply.err ERANGE]) ∧
    (0 < r → r ≤ size →
      replies (issued s (sqfs_ll_op_getxattr env s ino name size position))
        = [Reply.buf env.malloc r]) := by
  have hig : sqfs_ll_iget env (s.stamp env) _ = (s.stamp env, some lli) :=
    sqfs_ll_iget_resolved (by rw [sqfs_ll_iget_snd env _ s]; exact hres)
  by_cases hpos : position.isSome ∧ position ≠ some 0
  · exfalso
    simp [sqfs_ll_op_getxattr, hpos, issued, fuse_reply_err, State.emit] at halloc
  · have hrun : sqfs_ll_op_getxattr env s ino name size position
        = (if r = 0 then
            free (fuse_reply_err ((s.stamp env).emit (Event.malloc env.malloc))
              env.sqfs_enoattr) env.malloc
          else if size = 0 then
            free (fuse_reply_xattr ((s.stamp env).emit (Event.malloc env.malloc)) r) env.malloc
          else if size < r then
            free (fuse_reply_err ((s.stamp env).emit (Event.malloc env.malloc)) ERANGE)
              env.malloc
          else
            free (fuse_reply_buf ((s.stamp env).emit (Event.malloc env.malloc)) env.malloc r)
              env.malloc) := by
      unfold sqfs_ll_op_getxattr
      rw [if_neg hpos]
      simp only [hig, malloc, hnonnull, hlookup, if_false]
    rw [hrun]
    refine ⟨?_, ?_, ?_, ?_⟩
    · intro h0
      simp [h0, issued, replies,
        free, fuse_reply_err, State.emit, State.stamp]
    · intro hr hs
      have hr' : r ≠ 0 := by omega
      simp [hr', hs, issued,
        replies, free, fuse_reply_xattr, State.emit, State.stamp]
    · intro hr hs hlt
      have hr' : r ≠ 0 := by omega
      have hs' : size ≠ 0 := by omega
      simp [hr', hs', hlt, issued,
        replies, free, fuse_reply_err, State.emit, State.stamp]
    · intro hr hle
      have hr' : r ≠ 0 := by omega
      have hs' : size ≠ 0 := by omega
      have hlt : ¬ size < r := by omega
      simp [hr', hs', hlt, issued,
        replies, free, fuse_reply_buf, State.emit, State.stamp]

/-- C3 applies to the sample inode, whose attribute needs 5 bytes: a request
for 8 bytes is answered with a buffer of 5 bytes. -/
theorem getxattr_reply_witness :
    Event.malloc sample_env.malloc
      ∈ issued sample_state (sqfs_ll_op_getxattr sample_env sample_state 2 "user.x" 8 none) ∧
    replies (issued sample_state (sqfs_ll_op_getxattr sample_env sample_state 2 "user.x" 8 none))
      = [Reply.buf 9 5] :=
  ⟨by decide,
   (getxattr_reply sample_env sample_state 2 "user.x" 8 none { inode := sample_inode_reg } 5
      (by decide) (by decide) (by decide) rfl).2.2.2 (by decide) (by decide)⟩

/-- C4: when the parent resolves to a directory and the directory scan succeeds
without finding the name, `sqfs_ll_op_lookup` performs a single action, an entry
reply with inode number 0 and both validities set to `SQFS_TIMEOUT`; it issues no
error reply and asks the registry to register nothing. -/
theorem lookup_miss_negative_entry (env : Env) (s : State) (parent : fuse_ino_t)
    (name : String) (lli : sqfs_ll_i)
    (hres : (sqfs_ll_iget env s parent).2 = some lli)
    (hdir : S_ISDIR lli.inode.base.mode = true)
    (hmiss : env.sqfs_dir_lookup lli.inode name = some none) :
    issued s (sqfs_ll_op_lookup env s parent name)
      = [Event.reply (Reply.entry
          { ino := 0, generation := 0, attr := { st_ino := 0, st_mode := 0, st_rest := 0 },
            attr_timeout := SQFS_TIMEOUT, entry_timeout := SQFS_TIMEOUT })] ∧
    (∀ e, Reply.err e ∉ replies (issued s (sqfs_ll_op_lookup env s parent name))) ∧
    (∀ d n, Event.ino_register d n ∉ issued s (sqfs_ll_op_lookup env s parent name)) := by
  have hig : sqfs_ll_iget env (s.stamp env) _ = (s.stamp env, some lli) :=
    sqfs_ll_iget_resolved (by rw [sqfs_ll_iget_snd env _ s]; exact hres)
  have h : issued s (sqfs_ll_op_lookup env s parent name)
      = [Event.reply (Reply.entry
          { ino := 0, generation := 0, attr := { st_ino := 0, st_mode := 0, st_rest := 0 },
            attr_timeout := SQFS_TIMEOUT, entry_timeout := SQFS_TIMEOUT })] := by
    simp only [sqfs_ll_op_lookup, hig, hdir, hmiss, Bool.not_true, Bool.false_eq_true,
      if_false]
    simp [issued, fuse_reply_entry, State.emit, State.stamp]
  rw [h]
  exact ⟨rfl, by simp [replies], by simp⟩

/-- C4 applies to the lookup of the absent name "zz" in the sample directory. -/
theorem lookup_miss_negative_entry_witness :
    replies (issued sample_state (sqfs_ll_op_lookup sample_env sample_state 1 "zz"))
      = [Reply.entry
          { ino := 0, generation := 0, attr := { st_ino := 0, st_mode := 0, st_rest := 0 },
            attr_timeout := Validity.DBL_MAX, entry_timeout := Validity.DBL_MAX }] := by
  rw [(lookup_miss_negative_entry sample_env sample_state 1 "zz" { inode := sample_inode_dir }
    (by decide) (by decide) (by decide)).1]
  rfl

/-- C8: when `sqfs_ll_op_lookup` finds the entry `d` and replies with an entry,
the entry's inode number is the number the registry returned for `d`, and so is
the `st_ino` of its attributes; whenever `sqfs_ll_op_getattr` on an inode number
replies with attributes, their `st_ino` is that number; hence `getattr` on the
number returned by the lookup reports the `st_ino` of the lookup's attributes. -/
theorem lookup_getattr_same_ino (env : Env) (s : State) (parent : fuse_ino_t) (name : String)
    (lli : sqfs_ll_i) (d : sqfs_dir_entry) (e : fuse_entry_param)
    (hres : (sqfs_ll_iget env s parent).2 = some lli)
    (hfound : env.sqfs_dir_lookup lli.inode name = some (some d))
    (hentry : Reply.entry e ∈ replies (issued s (sqfs_ll_op_lookup env s parent name))) :
    (Event.ino_register d (env.ino_register d)
        ∈ issued s (sqfs_ll_op_lookup env s parent name) ∧
      e.ino = env.ino_register d ∧ e.attr.st_ino = env.ino_register d) ∧
    (∀ (env2 : Env) (s2 : State) (ino : fuse_ino_t) (fi : fuse_file_info) (st : stat)
        (v : Validity),
      Reply.attr st v ∈ replies (issued s2 (sqfs_ll_op_getattr env2 s2 ino fi)) →
      st.st_ino = ino) ∧
    (∀ (env2 : Env) (s2 : State) (fi : fuse_file_info) (st : stat) (v : Validity),
      Reply.attr st v ∈ replies (issued s2 (sqfs_ll_op_getattr env2 s2 e.ino fi)) →
      st.st_ino = e.attr.st_ino) := by
  have hig : sqfs_ll_iget env (s.stamp env) _ = (s.stamp env, some lli) :=
    sqfs_ll_iget_resolved (by rw [sqfs_ll_iget_snd env _ s]; exact hres)
  have hget : ∀ (env2 : Env) (s2 : State) (ino : fuse_ino_t) (fi : fuse_file_info) (st : stat)
      (v : Validity),
      Reply.attr st v ∈ replies (issued s2 (sqfs_ll_op_getattr env2 s2 ino fi)) →
      st.st_ino = ino := by
    intro env2 s2 ino fi st v hmem
    rcases sqfs_ll_iget_cases env2 (s2.stamp env2) ino with ⟨lli2, h⟩ | h
    · simp only [sqfs_ll_op_getattr, h] at hmem
      split at hmem
      · simp [issued, replies, fuse_reply_err, State.emit, State.stamp] at hmem
      · simp [issued, replies, fuse_reply_attr, State.emit, State.stamp] at hmem
        rw [hmem.1]
    · simp only [sqfs_ll_op_getattr, h] at hmem
      simp [issued, replies, fuse_reply_err, State.emit, State.stamp] at hmem
  have hlook : Event.ino_register d (env.ino_register d)
        ∈ issued s (sqfs_ll_op_lookup env s parent name) ∧
      e.ino = env.ino_register d ∧ e.attr.st_ino = env.ino_register d := by
    cases hdir : S_ISDIR lli.inode.base.mode with
    | false =>
      simp only [sqfs_ll_op_lookup, hig, hfound, hdir, Bool.not_false, if_true] at hentry
      simp [issued, replies, fuse_reply_err, State.emit, State.stamp] at hentry
    | true =>
      cases hinode : env.sqfs_inode_get d.inode with
      | none =>
        simp only [sqfs_ll_op_lookup, hig, hfound, hdir, hinode, Bool.not_true,
          Bool.false_eq_true, if_false] at hentry
        simp [issued, replies, fuse_reply_err, State.emit, State.stamp] at hentry
      | some inode =>
        cases hattr : env.sqfs_stat inode with
        | none =>
          simp only [sqfs_ll_op_lookup, hig, hfound, hdir, hinode, hattr, Bool.not_true,
            Bool.false_eq_true, if_false] at hentry
          simp [issued, replies, fuse_reply_err, State.emit, State.stamp] at hentry
        | some attr =>
          simp only [sqfs_ll_op_lookup, hig, hfound, hdir, hinode, hattr, Bool.not_true,
            Bool.false_eq_true, if_false] at hentry ⊢
          simp [issued, replies, fuse_reply_entry, State.emit, State.stamp] at hentry ⊢
          subst hentry
          simp
  refine ⟨hlook, hget, ?_⟩
  intro env2 s2 fi st v hmem
  rw [hget env2 s2 e.ino fi st v hmem, hlook.2.1, hlook.2.2]

/-- C8 applies to the lookup of "bb" in the sample directory, registered under
number 1003, followed by `getattr` on 1003. -/
theorem lookup_getattr_same_ino_witness :
    Reply.entry
        { ino := 1003, generation := 0,
          attr := { st_ino := 1003, st_mode := 0o100644, st_rest := 0 },
          attr_timeout := SQFS_TIMEOUT, entry_timeout := SQFS_TIMEOUT }
      ∈ replies (issued sample_state (sqfs_ll_op_lookup sample_env sample_state 1 "bb")) ∧
    Reply.attr { st_ino := 1003, st_mode := 0o100644, st_rest := 0 } SQFS_TIMEOUT
      ∈ replies (issued sample_state (sqfs_ll_op_getattr sample_env sample_state 1003 sample_fi)) ∧
    (1003 : Nat) = sample_env.ino_register
      { name := "bb", inode := 3, mode := 0o100644, next_offset := 31 } :=
  ⟨by decide, by decide,
   (lookup_getattr_same_ino sample_env sample_state 1 "bb" { inode := sample_inode_dir }
      { name := "bb", inode := 3, mode := 0o100644, next_offset := 31 }
      { ino := 1003, generation := 0,
        attr := { st_ino := 1003, st_mode := 0o100644, st_rest := 0 },
        attr_timeout := SQFS_TIMEOUT, entry_timeout := SQFS_TIMEOUT }
      (by decide) (by decide) (by decide)).1.2.1⟩

/-! ## `opendir` and `open` -/

/-- C10: for `sqfs_ll_op_opendir` and `sqfs_ll_op_open` alike, from a 32-bit
`open_refcount` below `INT_MAX` (so that `++` does not overflow), `open_refcount`
grows by exactly 1 if and only if the handler replies with a successful open,
and then the one handle allocated is stored in `fi->fh` and stays allocated;
in every other case the reply is one of the listed errors (`EROFS` for write or
read-write flags, `ENOMEM` for a failed allocation, `ENOENT` for a failed inode
resolution, `ENOTDIR` for a non-directory in `opendir`, `EISDIR` for a
non-regular file in `open`), `open_refcount` is unchanged, no handle is stored
and whatever the call allocated has been freed.  The open succeeds exactly on
a directory (`opendir`) or on a regular file asked for without write access
(`open`), once the allocation and the inode resolution have succeeded. -/
theorem open_handlers_contract (is_dir : Bool) (env : Env) (s : State) (ino : fuse_ino_t)
    (fi : fuse_file_info)
    (hlo : INT_MIN ≤ s.open_refcount) (hhi : s.open_refcount < INT_MAX) :
    ((∃ fo, Reply.open fo ∈ replies (issued s (open_handler is_dir env s ino fi).1)) ↔
      (open_handler is_dir env s ino fi).1.open_refcount = s.open_refcount + 1) ∧
    ((∃ fo, Reply.open fo ∈ replies (issued s (open_handler is_dir env s ino fi).1)) →
      replies (issued s (open_handler is_dir env s ino fi).1)
        = [Reply.open (open_handler is_dir env s ino fi).2] ∧
      (open_handler is_dir env s ino fi).2.fh = env.malloc ∧ env.malloc ≠ 0 ∧
      live_allocs (issued s (open_handler is_dir env s ino fi).1) [] = [env.malloc]) ∧
    ((¬ ∃ fo, Reply.open fo ∈ replies (issued s (open_handler is_dir env s ino fi).1)) →
      (∃ e, replies (issued s (open_handler is_dir env s ino fi).1) = [Reply.err e] ∧
        (e = EROFS ∨ e = ENOMEM ∨ e = ENOENT ∨ e = ENOTDIR ∨ e = EISDIR)) ∧
      (open_handler is_dir env s ino fi).1.open_refcount = s.open_refcount ∧
      (open_handler is_dir env s ino fi).2.fh = (if is_dir then 0 else fi.fh) ∧
      live_allocs (issued s (open_handler is_dir env s ino fi).1) [] = []) ∧
    (is_dir = false → fi.flags &&& (O_WRONLY ||| O_RDWR) ≠ 0 →
      replies (issued s (open_handler is_dir env s ino fi).1) = [Reply.err EROFS]) ∧
    ((is_dir = true ∨ fi.flags &&& (O_WRONLY ||| O_RDWR) = 0) → env.malloc = 0 →
      replies (issued s (open_handler is_dir env s ino fi).1) = [Reply.err ENOMEM]) ∧
    (is_dir = true → env.malloc ≠ 0 → (sqfs_ll_iget env s ino).2 = none →
      replies (issued s (open_handler is_dir env s ino fi).1) = [Reply.err ENOENT]) ∧
    (is_dir = false → fi.flags &&& (O_WRONLY ||| O_RDWR) = 0 → env.malloc ≠ 0 →
      env.sqfs_ll_inode ino = none →
      replies (issued s (open_handler is_dir env s ino fi).1) = [Reply.err ENOENT]) ∧
    (is_dir = true → env.malloc ≠ 0 →
      ∀ lli, (sqfs_ll_iget env s ino).2 = some lli → S_ISDIR lli.inode.base.mode = false →
        replies (issued s (open_handler is_dir env s ino fi).1) = [Reply.err ENOTDIR]) ∧
    (is_dir = false → fi.flags &&& (O_WRONLY ||| O_RDWR) = 0 → env.malloc ≠ 0 →
      ∀ i, env.sqfs_ll_inode ino = some i → S_ISREG i.base.mode = false →
        replies (issued s (open_handler is_dir env s ino fi).1) = [Reply.err EISDIR]) ∧
    (is_dir = true → env.malloc ≠ 0 →
      ∀ lli, (sqfs_ll_iget env s ino).2 = some lli → S_ISDIR lli.inode.base.mode = true →
        replies (issued s (open_handler is_dir env s ino fi).1)
          = [Reply.open { fi with fh := env.malloc }]) ∧
    (is_dir = false → fi.flags &&& (O_WRONLY ||| O_RDWR) = 0 → env.malloc ≠ 0 →
      ∀ i, env.sqfs_ll_inode ino = some i → S_ISREG i.base.mode = true →
        replies (issued s (open_handler is_dir env s ino fi).1)
          = [Reply.open { fi with fh := env.malloc, keep_cache := 1 }]) := by
  have hw : to_sig_atomic_t (s.open_refcount + 1) = s.open_refcount + 1 :=
    to_sig_atomic_t_of_range (by omega) (by unfold INT_MAX at hhi ⊢; omega)
  rw [sqfs_ll_iget_snd env s ((s.stamp env).emit (Event.malloc env.malloc)) ino]
  cases is_dir with
  | false =>
    by_cases hfl : fi.flags &&& (O_WRONLY ||| O_RDWR) = 0
    · by_cases hm : env.malloc = 0
      · simp [open_handler, sqfs_ll_op_open, hfl, hm, malloc, fuse_reply_err, State.emit,
          State.stamp, issued, replies, live_allocs, EROFS, ENOMEM, ENOENT, ENOTDIR, EISDIR]
      · cases hi : env.sqfs_ll_inode ino with
        | none =>
          simp [open_handler, sqfs_ll_op_open, hfl, hm, hi, malloc, free, fuse_reply_err,
            State.emit, State.stamp, issued, replies, live_allocs, EROFS, ENOMEM, ENOENT,
            ENOTDIR, EISDIR]
        | some i =>
          cases hreg : S_ISREG i.base.mode with
          | false =>
            simp [open_handler, sqfs_ll_op_open, hfl, hm, hi, hreg, malloc, free,
              fuse_reply_err, State.emit, State.stamp, issued, replies, live_allocs, EROFS,
              ENOMEM, ENOENT, ENOTDIR, EISDIR]
          | true =>
            simp [open_handler, sqfs_ll_op_open, hfl, hm, hi, hreg, hw, malloc, free,
              fuse_reply_open, State.emit, State.stamp, issued, replies, live_allocs]
    · simp [open_handler, sqfs_ll_op_open, hfl, fuse_reply_err, State.emit,
        State.stamp, issued, replies, live_allocs, EROFS, ENOMEM, ENOENT, ENOTDIR, EISDIR]
  | true =>
    by_cases hm : env.malloc = 0
    · simp [open_handler, sqfs_ll_op_opendir, hm, malloc, fuse_reply_err, State.emit,
        State.stamp, issued, replies, live_allocs, EROFS, ENOMEM, ENOENT, ENOTDIR, EISDIR]
    · rcases sqfs_ll_iget_cases env ((s.stamp env).emit (Event.malloc env.malloc)) ino
        with ⟨lli, h⟩ | h
      · cases hdir : S_ISDIR lli.inode.base.mode with
        | false =>
          simp only [open_handler, sqfs_ll_op_opendir, malloc, h, hm, hdir, if_true, if_false,
            Bool.not_false]
          simp [hm, hdir, free, fuse_reply_err, State.emit, State.stamp, issued, replies,
            live_allocs, EROFS, ENOMEM, ENOENT, ENOTDIR, EISDIR]
        | true =>
          simp only [open_handler, sqfs_ll_op_opendir, malloc, h, hm, hdir, if_true, if_false,
            Bool.not_true, Bool.false_eq_true]
          simp [hw, hm, hdir, fuse_reply_open, State.emit, State.stamp, issued, replies,
            live_allocs]
      · simp only [open_handler, sqfs_ll_op_opendir, malloc, h, hm, if_true, if_false]
        simp [hm, free, fuse_reply_err, State.emit, State.stamp, issued, replies,
          live_allocs, EROFS, ENOMEM, ENOENT, ENOTDIR, EISDIR]


/-- C10 on the sample data, count 0: `opendir` on the directory inode and
`open` on the regular file each reply with an open, store the allocated handle
9 and raise the count to 1. -/
theorem open_handlers_contract_witness :
    (INT_MIN ≤ sample_state.open_refcount ∧ sample_state.open_refcount < INT_MAX) ∧
    ((open_handler true sample_env sample_state 1 sample_fi).1.open_refcount = 0 + 1 ∧
      (open_handler true sample_env sample_state 1 sample_fi).2.fh = 9) ∧
    ((open_handler false sample_env sample_state 2 sample_fi).1.open_refcount = 0 + 1 ∧
      replies (issued sample_state (open_handler false sample_env sample_state 2 sample_fi).1)
        = [Reply.open { flags := 0, fh := 9, keep_cache := 1 }]) :=
  ⟨by decide,
   ⟨(open_handlers_contract true sample_env sample_state 1 sample_fi
        (by decide) (by decide)).1.mp
      ⟨{ flags := 0, fh := 9, keep_cache := 0 }, by decide⟩,
    ((open_handlers_contract true sample_env sample_state 1 sample_fi
        (by decide) (by decide)).2.1
      ⟨{ flags := 0, fh := 9, keep_cache := 0 }, by decide⟩).2.1⟩,
   ⟨(open_handlers_contract false sample_env sample_state 2 sample_fi
        (by decide) (by decide)).1.mp
      ⟨{ flags := 0, fh := 9, keep_cache := 1 }, by decide⟩,
    (open_handlers_contract false sample_env sample_state 2 sample_fi
        (by decide) (by decide)).2.2.2.2.2.2.2.2.2.2
      rfl (by decide) (by decide) sample_inode_reg (by decide) (by decide)⟩⟩

/-! ## The idle-timeout tick -/

/-- C7: `alarm_tick` does exactly one of three things and changes no variable:
nothing when the session pointer is unset or the timeout is 0; a `SIGINT` to the
process, without rescheduling, when moreover `open_refcount = 0` and the time
since `last_access` is strictly greater than the timeout; one `alarm(1)` in
every other case.  With timeout 2 and `open_refcount = 0` a tick at elapsed
time 2 or less reschedules instead of interrupting, and after a request that
refreshed `last_access`, a tick at which the old stamp would have led to the
interruption but the new one is at most 2 seconds old reschedules as well. -/
theorem alarm_tick_spec (env : Env) (s : State) (sig : Nat) :
    ((s.fuse_instance = 0 ∨ s.idle_timeout_secs = 0) →
      alarm_tick env s sig = s ∧ issued s (alarm_tick env s sig) = []) ∧
    (¬(s.fuse_instance = 0 ∨ s.idle_timeout_secs = 0) →
      (s.open_refcount = 0 ∧ env.time - s.last_access > (s.idle_timeout_secs : Int)) →
      alarm_tick env s sig = s.emit (Event.kill SIGINT) ∧
      issued s (alarm_tick env s sig) = [Event.kill SIGINT]) ∧
    (¬(s.fuse_instance = 0 ∨ s.idle_timeout_secs = 0) →
      ¬(s.open_refcount = 0 ∧ env.time - s.last_access > (s.idle_timeout_secs : Int)) →
      alarm_tick env s sig = s.emit (Event.alarm 1) ∧
      issued s (alarm_tick env s sig) = [Event.alarm 1]) ∧
    (s.fuse_instance ≠ 0 → s.idle_timeout_secs = 2 → s.open_refcount = 0 →
      env.time - s.last_access ≤ 2 →
      issued s (alarm_tick env s sig) = [Event.alarm 1]) ∧
    (∀ (envr : Env) (req : Request),
      s.fuse_instance ≠ 0 → s.idle_timeout_secs = 2 → s.open_refcount = 0 →
      (sqfs_ll_ops envr s req).last_access = envr.time →
      env.time - s.last_access > 2 → env.time - envr.time ≤ 2 →
      issued s (alarm_tick env s sig) = [Event.kill SIGINT] ∧
      issued (sqfs_ll_ops envr s req) (alarm_tick env (sqfs_ll_ops envr s req) sig)
        = [Event.alarm 1]) := by
  refine ⟨?_, ?_, ?_, ?_, ?_⟩
  · intro h
    simp [alarm_tick, h, issued]
  · intro h1 h2
    simp [alarm_tick, h1, h2, issued, State.emit]
  · intro h1 h2
    simp [alarm_tick, h1, h2, issued, State.emit]
  · intro hf ht hr hel
    have h2 : ¬(s.open_refcount = 0 ∧ env.time - s.last_access > (s.idle_timeout_secs : Int)) := by
      rw [ht]; push_cast; omega
    have h1 : ¬(s.fuse_instance = 0 ∨ s.idle_timeout_secs = 0) := by
      rw [ht]; simp [hf]
    simp [alarm_tick, h1, h2, issued, State.emit]
  · intro envr req hf ht hr hstamp hold hnew
    obtain ⟨l, r, -, hto, hfi, -⟩ := sqfs_ll_ops_summary envr s req
    constructor
    · have h1 : ¬(s.fuse_instance = 0 ∨ s.idle_timeout_secs = 0) := by
        rw [ht]; simp [hf]
      have h2 : s.open_refcount = 0 ∧ env.time - s.last_access > (s.idle_timeout_secs : Int) := by
        rw [ht]; push_cast; exact ⟨hr, hold⟩
      simp [alarm_tick, h1, h2, issued, State.emit]
    · have h1 : ¬((sqfs_ll_ops envr s req).fuse_instance = 0 ∨
          (sqfs_ll_ops envr s req).idle_timeout_secs = 0) := by
        rw [hto, hfi, ht]; simp [hf]
      have h2 : ¬((sqfs_ll_ops envr s req).open_refcount = 0 ∧
          env.time - (sqfs_ll_ops envr s req).last_access
            > ((sqfs_ll_ops envr s req).idle_timeout_secs : Int)) := by
        rw [hto, hstamp, ht]; push_cast; omega
      simp [alarm_tick, h1, h2, issued, State.emit]

/-- C7 on the armed state (stamp 100, timeout 2, no open handle): the tick at
time 103 interrupts, but not after a `getattr` served at time 102. -/
theorem alarm_tick_spec_witness :
    armed_state.fuse_instance ≠ 0 ∧ armed_state.idle_timeout_secs = 2 ∧
    armed_state.open_refcount = 0 ∧ armed_state.last_access = 100 ∧
    issued armed_state (alarm_tick { sample_env with time := 103 } armed_state 14)
      = [Event.kill SIGINT] ∧
    issued
        (sqfs_ll_ops { sample_env with time := 102 } armed_state (Request.getattr 1 sample_fi))
        (alarm_tick { sample_env with time := 103 }
          (sqfs_ll_ops { sample_env with time := 102 } armed_state (Request.getattr 1 sample_fi))
          14)
      = [Event.alarm 1] :=
  ⟨by decide, by decide, by decide, by decide,
   (alarm_tick_spec { sample_env with time := 103 } armed_state 14).2.2.2.2
     { sample_env with time := 102 } (Request.getattr 1 sample_fi)
     (by decide) (by decide) (by decide) (by decide) (by decide) (by decide)⟩

/-! ## The access stamp -/

/-- The handlers stamp `last_access` on every path but three: `statfs` never
does, `read` returns before the stamp when its allocation fails, and `getxattr`
returns before it when it rejects a non-zero position. -/
theorem last_access_after_request (env : Env) (s : State) (req : Request) :
    (sqfs_ll_ops env s req).last_access
      = if skips_stamp env req then s.last_access else env.time := by
  cases req with
  | getattr ino fi =>
    rcases sqfs_ll_iget_cases env (s.stamp env) ino with ⟨lli, h⟩ | h <;>
      simp only [sqfs_ll_ops, sqfs_ll_op_getattr, h, skips_stamp, Bool.false_eq_true, if_false] <;> (repeat' split) <;>
      simp_all [fuse_reply_err, fuse_reply_attr, State.emit, State.stamp]
  | opendir ino fi =>
    rcases sqfs_ll_iget_cases env ((s.stamp env).emit (Event.malloc env.malloc)) ino
      with ⟨lli, h⟩ | h <;>
      simp only [sqfs_ll_ops, sqfs_ll_op_opendir, malloc, h, skips_stamp, Bool.false_eq_true, if_false] <;>
      (repeat' split) <;>
      simp_all [fuse_reply_err, fuse_reply_open, free, State.emit, State.stamp]
  | releasedir ino fi =>
    simp [sqfs_ll_ops, sqfs_ll_op_releasedir, fuse_reply_err, free, State.emit, State.stamp,
      skips_stamp]
  | readdir ino size off fi =>
    obtain ⟨l, heq, -⟩ := readdir_shape env s ino size off fi
    rw [show sqfs_ll_ops env s (Request.readdir ino size off fi)
        = sqfs_ll_op_readdir env s ino size off fi from rfl, heq]
    simp [skips_stamp]
  | lookup parent name =>
    rcases sqfs_ll_iget_cases env (s.stamp env) parent with ⟨lli, h⟩ | h <;>
      simp only [sqfs_ll_ops, sqfs_ll_op_lookup, h, skips_stamp, Bool.false_eq_true, if_false] <;> (repeat' split) <;>
      simp_all [fuse_reply_err, fuse_reply_entry, State.emit, State.stamp]
  | «open» ino fi =>
    simp only [sqfs_ll_ops, sqfs_ll_op_open, malloc, skips_stamp, Bool.false_eq_true,
      if_false]
    (repeat' split) <;>
      simp_all [fuse_reply_err, fuse_reply_open, free, State.emit, State.stamp]
  | create parent name mode fi =>
    simp [sqfs_ll_ops, sqfs_ll_op_create, fuse_reply_err, State.emit, State.stamp, skips_stamp]
  | release ino fi =>
    simp [sqfs_ll_ops, sqfs_ll_op_release, fuse_reply_err, free, State.emit, State.stamp,
      skips_stamp]
  | read ino size off fi =>
    by_cases hm : env.malloc = 0
    · simp [sqfs_ll_ops, sqfs_ll_op_read, malloc, hm, skips_stamp, fuse_reply_err, State.emit]
    · simp only [sqfs_ll_ops, sqfs_ll_op_read, malloc, hm, skips_stamp, if_false]
      (repeat' split) <;>
        simp_all [fuse_reply_err, fuse_reply_buf, free, State.emit, State.stamp]
  | readlink ino =>
    rcases sqfs_ll_iget_cases env (s.stamp env) ino with ⟨lli, h⟩ | h <;>
      simp only [sqfs_ll_ops, sqfs_ll_op_readlink, malloc, h, skips_stamp, Bool.false_eq_true, if_false] <;>
      (repeat' split) <;>
      simp_all [fuse_reply_err, fuse_reply_readlink, free, State.emit, State.stamp]
  | listxattr ino size =>
    rcases sqfs_ll_iget_cases env (s.stamp env) ino with ⟨lli, h⟩ | h <;>
      simp only [sqfs_ll_ops, sqfs_ll_op_listxattr, malloc, h, skips_stamp, Bool.false_eq_true, if_false] <;>
      (repeat' split) <;>
      simp_all [fuse_reply_err, fuse_reply_buf, fuse_reply_xattr, free, State.emit,
        State.stamp]
  | getxattr ino name size position =>
    by_cases hp : position.isSome ∧ position ≠ some 0
    · simp [sqfs_ll_ops, sqfs_ll_op_getxattr, hp, skips_stamp, fuse_reply_err, State.emit]
    · have hskip : skips_stamp env (Request.getxattr ino name size position) = false := by
        cases position with
        | none => rfl
        | some p =>
          have : p = 0 := by simpa using hp
          subst this; rfl
      rw [hskip]
      rcases sqfs_ll_iget_cases env (s.stamp env) ino with ⟨lli, h⟩ | h <;>
        simp only [sqfs_ll_ops, sqfs_ll_op_getxattr, if_neg hp, malloc, h] <;>
        (repeat' split) <;>
        simp_all [fuse_reply_err, fuse_reply_buf, fuse_reply_xattr, free, State.emit,
          State.stamp]
  | forget ino nlookup =>
    simp [sqfs_ll_ops, sqfs_ll_op_forget, sqfs_ll_iget, fuse_reply_none, State.emit,
      State.stamp, skips_stamp]
  | statfs ino =>
    simp only [sqfs_ll_ops, stfs_ll_op_statfs, skips_stamp, if_true]
    (repeat' split) <;>
      simp_all [fuse_reply_err, fuse_reply_statfs, State.emit]

/-- C6 fails on the code: with `last_access = 100` and the clock at 200, a
`statfs` request, a `read` whose buffer allocation fails and a `getxattr` with a
non-zero position all return with `last_access` still 100, whereas a sibling
handler such as `getattr` leaves it at 200. -/
theorem last_access_not_stamped :
    sample_state.last_access = 100 ∧ sample_env.time = 200 ∧
    (sqfs_ll_ops sample_env sample_state (Request.statfs 1)).last_access = 100 ∧
    (sqfs_ll_ops { sample_env with malloc := 0 } sample_state
        (Request.read 2 16 0 sample_fi)).last_access = 100 ∧
    (sqfs_ll_ops sample_env sample_state
        (Request.getxattr 2 "user.x" 8 (some 1))).last_access = 100 ∧
    (sqfs_ll_ops sample_env sample_state (Request.getattr 1 sample_fi)).last_access = 200 := by
  decide

/-! ## Byte lengths and the 32-bit count on sample values -/

/-- The function `strlen` counts bytes, not characters, and stops at a NUL; at
`INT_MAX` the increment of a `sig_atomic_t` wraps to `INT_MIN`. -/
theorem strlen_and_wrap_samples :
    strlen "abc" = 3 ∧ strlen "ééééé" = 10 ∧
    libfuse_dirent_size (strlen "ééééé") = 40 ∧
    strlen (String.mk [Char.ofNat 97, Char.ofNat 0, Char.ofNat 98]) = 1 ∧
    to_sig_atomic_t (INT_MAX + 1) = INT_MIN ∧ to_sig_atomic_t (0 - 1) = -1 := by
  decide

end Squashfuse
